import Mathlib

/-!
# ln_shared / amazon: product cache

A shallow embedding of `amazon/amazon.go` (and its twin declarations in `amazon/structs.go`):
the product record and its JSON codec, the variant lookup, the in-memory cache index, the
month-partitioned file store, and the two retrieval functions.

Modelling conventions

* Go strings are Lean strings (so only valid UTF-8 text is represented).
* A Go slice is the list of its elements; a nil slice and an empty slice are both `[]`.
* Go `int` is `Int`; `float64`, `float32` are carried as bit patterns; `time.Time` is carried as
  its RFC 3339 rendering.
* A file holds a JSON document tree (or nothing yet); the text layer of `encoding/json` is not
  modelled.
* The store is a tree of directories and files under the working directory, which is taken to
  be the root of the file system. `os.Create` and `os.Open` resolve the path they are given
  element by element, as the operating system does; there are no symbolic links, and every
  directory may be searched and written.
* `log.Fatal` ends the run: every function that can reach it returns an `Outcome`.
-/

namespace Amazon

/-! ## Scalars -/

/-- A Go float64, carried as its IEEE 754 bit pattern. -/
structure GoFloat64 where
  bits : Fin 18446744073709551616 := 0
deriving DecidableEq

/-- A Go float32, carried as its IEEE 754 bit pattern. -/
structure GoFloat32 where
  bits : Fin 4294967296 := 0
deriving DecidableEq

/-- Neither NaN nor an infinity: the exponent field is not all ones. -/
def GoFloat64.isFinite (x : GoFloat64) : Bool := (x.bits.val / 2 ^ 52) % 2 ^ 11 != 2047

/-- Neither NaN nor an infinity: the exponent field is not all ones. -/
def GoFloat32.isFinite (x : GoFloat32) : Bool := (x.bits.val / 2 ^ 23) % 2 ^ 8 != 255

/-- A Go time.Time, carried as the RFC 3339 text `MarshalJSON` writes for it: the date and the
time of day in the zone of the value, the fraction of the second without trailing zeros, and
the zone as Z or as an offset. The zero value is midnight of January 1 of year 1, UTC. A time
`MarshalJSON` refuses, such as one in a year after 9999, has no such text and is not
represented. -/
structure GoTime where
  rfc3339 : String := "0001-01-01T00:00:00Z"
deriving DecidableEq

/-- The number two decimal digits write. -/
def num2 (a b : Char) : Option Nat :=
  if a.isDigit ∧ b.isDigit then some (10 * (a.toNat - 48) + (b.toNat - 48)) else none

/-- The number four decimal digits write. -/
def num4 (a b c d : Char) : Option Nat :=
  match num2 a b, num2 c d with
  | some x, some y => some (100 * x + y)
  | _, _ => none

/-- The number of days of a month of the Gregorian calendar. -/
def daysIn (year month : Nat) : Nat :=
  if month = 2 then
    if year % 4 = 0 ∧ (year % 100 ≠ 0 ∨ year % 400 = 0) then 29 else 28
  else if month = 4 ∨ month = 6 ∨ month = 9 ∨ month = 11 then 30
  else 31

/-- The zone of an RFC 3339 text as `MarshalJSON` writes it back: Z, or a sign and hh:mm with
the hour up to 23 and the minute up to 59; an offset of zero is written as Z. -/
def parseZone : List Char → Option (List Char)
  | ['Z'] => some ['Z']
  | [s, h1, h2, ':', m1, m2] =>
    if s = '+' ∨ s = '-' then
      match num2 h1 h2, num2 m1 m2 with
      | some h, some m =>
        if h ≤ 23 ∧ m ≤ 59 then
          if h = 0 ∧ m = 0 then some ['Z'] else some [s, h1, h2, ':', m1, m2]
        else none
      | _, _ => none
    else none
  | _ => none

/-- The fraction of the second and the zone, which follow the seconds, as written back: of
the digits after the point the first nine count, trailing zeros go, and a fraction of zero is
not written at all. A point must be followed by a digit. -/
def parseFractionZone (rest : List Char) : Option (List Char) :=
  match rest with
  | '.' :: more =>
    let digits := more.takeWhile Char.isDigit
    if digits = [] then none
    else
      match parseZone (more.dropWhile Char.isDigit) with
      | none => none
      | some zone =>
        let kept := ((digits.take 9).reverse.dropWhile (fun c => c = '0')).reverse
        some ((if kept = [] then [] else '.' :: kept) ++ zone)
  | _ => parseZone rest

/-- What `Time.UnmarshalJSON` followed by `Time.MarshalJSON` makes of the content of a JSON
string of the form yyyy-mm-ddThh:mm:ss, an optional fraction, a zone: the date must exist and
the time of day must be below 24:00:00. Any other text is refused. That includes the few
texts outside this form that some Go releases let through: an hour of one digit, a comma
before the fraction, a zone offset of 24 hours. -/
def parseRFC3339 : List Char → Option (List Char)
  | y1 :: y2 :: y3 :: y4 :: '-' :: o1 :: o2 :: '-' :: d1 :: d2 :: 'T' ::
      h1 :: h2 :: ':' :: m1 :: m2 :: ':' :: s1 :: s2 :: rest =>
    match num4 y1 y2 y3 y4, num2 o1 o2, num2 d1 d2, num2 h1 h2, num2 m1 m2, num2 s1 s2 with
    | some year, some month, some day, some hour, some minute, some second =>
      if 1 ≤ month ∧ month ≤ 12 ∧ 1 ≤ day ∧ day ≤ daysIn year month ∧
          hour ≤ 23 ∧ minute ≤ 59 ∧ second ≤ 59 then
        match parseFractionZone rest with
        | none => none
        | some tail =>
          some ([y1, y2, y3, y4, '-', o1, o2, '-', d1, d2, 'T', h1, h2, ':', m1, m2, ':', s1, s2]
            ++ tail)
      else none
    | _, _, _, _, _, _ => none
  | _ => none

/-! ## JSON documents and the encoding/json rules the record depends on -/

/-- A JSON document. A number literal is kept as the Go value it was written from, and is read
back only into a field of that numeric type: Go would also convert between numeric types when
the text of the literal allows it, which is not modelled. -/
inductive Json where
  | null
  | bool (b : Bool)
  | int (i : Int)
  | f64 (x : GoFloat64)
  | f32 (x : GoFloat32)
  | str (s : String)
  | arr (elems : List Json)
  | obj (members : List (String × Json))

/-- How encoding/json treats one Go type: `isEmpty` is its `isEmptyValue` (used by omitempty),
`enc` marshals, and `dec j old` unmarshals `j` into a variable currently holding `old`. -/
structure Codec (α : Type) where
  isEmpty : α → Bool
  enc : α → Except String Json
  dec : Json → α → Except String α

/-- One struct field as encoding/json sees it. -/
structure FieldCodec (σ : Type) where
  goName : String
  jsonName : String
  omitempty : Bool
  isEmpty : σ → Bool
  enc : σ → Except String Json
  dec : Json → σ → Except String σ

/-- A struct field declared `goName T` with tag `json:"jsonName[,omitempty]"`. -/
def field {σ α : Type} (goName jsonName : String) (omitempty : Bool) (c : Codec α)
    (get : σ → α) (set : σ → α → σ) : FieldCodec σ where
  goName := goName
  jsonName := jsonName
  omitempty := omitempty
  isEmpty := fun x => c.isEmpty (get x)
  enc := fun x => c.enc (get x)
  dec := fun j x => (c.dec j (get x)).map (set x)

def stringCodec : Codec String where
  isEmpty := fun s => s.length == 0
  enc := fun s => .ok (.str s)
  dec := fun j old =>
    match j with
    | .str s => .ok s
    | .null => .ok old
    | _ => .error "json: cannot unmarshal into Go value of type string"

def boolCodec : Codec Bool where
  isEmpty := fun b => b == false
  enc := fun b => .ok (.bool b)
  dec := fun j old =>
    match j with
    | .bool b => .ok b
    | .null => .ok old
    | _ => .error "json: cannot unmarshal into Go value of type bool"

/-- Go int is 64 bits wide: a literal outside that range is refused. -/
def intCodec : Codec Int where
  isEmpty := fun i => i == 0
  enc := fun i => .ok (.int i)
  dec := fun j old =>
    match j with
    | .int i =>
      if -9223372036854775808 ≤ i ∧ i ≤ 9223372036854775807 then .ok i
      else .error "json: cannot unmarshal number into Go value of type int"
    | .null => .ok old
    | _ => .error "json: cannot unmarshal into Go value of type int"

/-- NaN and the infinities are refused by the encoder (UnsupportedValueError); no JSON text
denotes them, so a document claiming to hold one is refused by the decoder as well. -/
def float64Codec : Codec GoFloat64 where
  isEmpty := fun x => x.bits.val % 2 ^ 63 == 0
  enc := fun x => if x.isFinite then .ok (.f64 x) else .error "json: unsupported value"
  dec := fun j old =>
    match j with
    | .f64 x => if x.isFinite then .ok x else .error "invalid character in numeric literal"
    | .null => .ok old
    | _ => .error "json: cannot unmarshal into Go value of type float64"

/-- NaN and the infinities are refused by the encoder (UnsupportedValueError); no JSON text
denotes them, so a document claiming to hold one is refused by the decoder as well. -/
def float32Codec : Codec GoFloat32 where
  isEmpty := fun x => x.bits.val % 2 ^ 31 == 0
  enc := fun x => if x.isFinite then .ok (.f32 x) else .error "json: unsupported value"
  dec := fun j old =>
    match j with
    | .f32 x => if x.isFinite then .ok x else .error "invalid character in numeric literal"
    | .null => .ok old
    | _ => .error "json: cannot unmarshal into Go value of type float32"

/-- The type time.Time, which brings its own MarshalJSON and UnmarshalJSON: a string is parsed
as RFC 3339 and the value then carries what MarshalJSON writes for the time parsed. -/
def timeCodec : Codec GoTime where
  isEmpty := fun _ => false
  enc := fun t => .ok (.str t.rfc3339)
  dec := fun j old =>
    match j with
    | .str s =>
      match parseRFC3339 s.data with
      | some text => .ok ⟨String.mk text⟩
      | none => .error "parsing time: cannot parse as RFC 3339"
    | .null => .ok old
    | _ => .error "Time.UnmarshalJSON: input is not a JSON string"

/-- Marshal the elements of a slice in order; the first failure is the result. -/
def encodeElems {α : Type} (c : Codec α) : List α → Except String (List Json)
  | [] => .ok []
  | x :: xs =>
    match c.enc x with
    | .error e => .error e
    | .ok j =>
      match encodeElems c xs with
      | .error e => .error e
      | .ok js => .ok (j :: js)

/-- Unmarshal array elements: element i is decoded into the slice's existing element i when
there is one, and into a zero value otherwise. -/
def decodeElems {α : Type} (c : Codec α) (zero : α) : List Json → List α → Except String (List α)
  | [], _ => .ok []
  | j :: js, old =>
    match c.dec j (old.headD zero) with
    | .error e => .error e
    | .ok v =>
      match decodeElems c zero js old.tail with
      | .error e => .error e
      | .ok vs => .ok (v :: vs)

/-- A slice type []T: a slice with no element is written as null, JSON null empties it. -/
def sliceCodec {α : Type} (c : Codec α) (zero : α) : Codec (List α) where
  isEmpty := fun xs => xs.length == 0
  enc := fun xs =>
    match xs with
    | [] => .ok .null
    | _ => (encodeElems c xs).map .arr
  dec := fun j old =>
    match j with
    | .arr js => decodeElems c zero js old
    | .null => .ok []
    | _ => .error "json: cannot unmarshal into Go value of slice type"

/-- The dominant-field rule of encoding/json for fields of one struct that all carry a tag and
sit at the same depth: a JSON name claimed by more than one field selects none of them, and no
error is reported. -/
def dominant {σ : Type} (fields : List (FieldCodec σ)) : List (FieldCodec σ) :=
  fields.filter (fun f => (fields.filter (fun g => g.jsonName == f.jsonName)).length == 1)

/-- Marshal the selected fields in order, skipping an omitempty field whose value is empty. -/
def encodeFields {σ : Type} : List (FieldCodec σ) → σ → Except String (List (String × Json))
  | [], _ => .ok []
  | f :: fs, x =>
    if f.omitempty && f.isEmpty x then encodeFields fs x
    else
      match f.enc x with
      | .error e => .error e
      | .ok j =>
        match encodeFields fs x with
        | .error e => .error e
        | .ok r => .ok ((f.jsonName, j) :: r)

/-- Case folding of one rune as far as it can matter for ASCII field names: ASCII letters, the
Kelvin sign and the long s. -/
def foldRune (c : Char) : Char :=
  if c = Char.ofNat 0x212A then 'K'
  else if c = Char.ofNat 0x017F then 'S'
  else c.toUpper

/-- The field an object key addresses: an exact match of the JSON name, else a match up to case. -/
def findField {σ : Type} (fields : List (FieldCodec σ)) (key : String) : Option (FieldCodec σ) :=
  match fields.find? (fun f => f.jsonName == key) with
  | some f => some f
  | none => fields.find? (fun f => f.jsonName.data.map foldRune == key.data.map foldRune)

/-- Unmarshal the members of an object in order; a key that addresses no field is skipped. -/
def decodeMembers {σ : Type} (fields : List (FieldCodec σ)) :
    List (String × Json) → σ → Except String σ
  | [], x => .ok x
  | (k, v) :: rest, x =>
    match findField fields k with
    | none => decodeMembers fields rest x
    | some f =>
      match f.dec v x with
      | .error e => .error e
      | .ok x1 => decodeMembers fields rest x1

/-- A struct type with the given fields. -/
def structCodec {σ : Type} (fields : List (FieldCodec σ)) : Codec σ where
  isEmpty := fun _ => false
  enc := fun x => (encodeFields (dominant fields) x).map .obj
  dec := fun j x =>
    match j with
    | .obj ms => decodeMembers (dominant fields) ms x
    | .null => .ok x
    | _ => .error "json: cannot unmarshal into Go value of struct type"

/-! ## The product record (amazon.go 27-302, structs.go 5-280) -/

/-- The Go struct type of ProductVariant.Price; every field starts at its zero value. -/
structure ProductVariant_Price where
  Symbol : String := ""
  Value : GoFloat64 := {}
  Currency : String := ""
  Raw : String := ""
deriving DecidableEq

/-- The Go struct type of ProductVariant; every field starts at its zero value. -/
structure ProductVariant where
  Asin : String := ""
  Link : String := ""
  IsCurrentProduct : Bool := false
  Title : String := ""
  Price : ProductVariant_Price := {}
deriving DecidableEq

/-- The Go struct type of ProductData.RequestInfo; every field starts at its zero value. -/
structure ProductData_RequestInfo where
  Success : Bool := false
  CreditsUsed : Int := 0
  CreditsUsedThisRequest : Int := 0
  CreditsRemaining : Int := 0
  CreditsResetAt : GoTime := {}
deriving DecidableEq

/-- The Go struct type of ProductData.RequestParameters; every field starts at its zero value. -/
structure ProductData_RequestParameters where
  AmazonDomain : String := ""
  Type_ : String := ""
  Gtin : String := ""
deriving DecidableEq

/-- The Go struct type of ProductData.RequestMetadata; every field starts at its zero value. -/
structure ProductData_RequestMetadata where
  CreatedAt : GoTime := {}
  ProcessedAt : GoTime := {}
  TotalTimeTaken : GoFloat64 := {}
  AmazonURL : String := ""
deriving DecidableEq

/-- The Go struct type of ProductData.Product.SearchAlias; every field starts at its zero value. -/
structure ProductData_Product_SearchAlias where
  Title : String := ""
  Value : String := ""
deriving DecidableEq

/-- The Go struct type of ProductData.Product.Authors; every field starts at its zero value. -/
structure ProductData_Product_Authors where
  Name : String := ""
  Link : String := ""
  Asin : String := ""
deriving DecidableEq

/-- The Go struct type of ProductData.Product.Categories; every field starts at its zero value. -/
structure ProductData_Product_Categories where
  Name : String := ""
  Link : String := ""
  CategoryID : String := ""
deriving DecidableEq

/-- The Go struct type of ProductData.Product.SubTitle; every field starts at its zero value. -/
structure ProductData_Product_SubTitle where
  Text : String := ""
  Link : String := ""
deriving DecidableEq

/-- The Go struct type of ProductData.Product.RatingBreakdown.FiveStar; every field starts at its zero value. -/
structure ProductData_Product_RatingBreakdown_FiveStar where
  Percentage : GoFloat32 := {}
  Count : Int := 0
deriving DecidableEq

/-- The Go struct type of ProductData.Product.RatingBreakdown.FourStar; every field starts at its zero value. -/
structure ProductData_Product_RatingBreakdown_FourStar where
  Percentage : GoFloat32 := {}
  Count : Int := 0
deriving DecidableEq

/-- The Go struct type of ProductData.Product.RatingBreakdown.ThreeStar; every field starts at its zero value. -/
structure ProductData_Product_RatingBreakdown_ThreeStar where
  Percentage : GoFloat32 := {}
  Count : Int := 0
deriving DecidableEq

/-- The Go struct type of ProductData.Product.RatingBreakdown.TwoStar; every field starts at its zero value. -/
structure ProductData_Product_RatingBreakdown_TwoStar where
  Percentage : GoFloat32 := {}
  Count : Int := 0
deriving DecidableEq

/-- The Go struct type of ProductData.Product.RatingBreakdown.OneStar; every field starts at its zero value. -/
structure ProductData_Product_RatingBreakdown_OneStar where
  Percentage : GoFloat32 := {}
  Count : Int := 0
deriving DecidableEq

/-- The Go struct type of ProductData.Product.RatingBreakdown; every field starts at its zero value. -/
structure ProductData_Product_RatingBreakdown where
  FiveStar : ProductData_Product_RatingBreakdown_FiveStar := {}
  FourStar : ProductData_Product_RatingBreakdown_FourStar := {}
  ThreeStar : ProductData_Product_RatingBreakdown_ThreeStar := {}
  TwoStar : ProductData_Product_RatingBreakdown_TwoStar := {}
  OneStar : ProductData_Product_RatingBreakdown_OneStar := {}
deriving DecidableEq

/-- The Go struct type of ProductData.Product.EditorialReviews; every field starts at its zero value. -/
structure ProductData_Product_EditorialReviews where
  Title : String := ""
  Body : String := ""
deriving DecidableEq

/-- The Go struct type of ProductData.Product.MainImage; every field starts at its zero value. -/
structure ProductData_Product_MainImage where
  Link : String := ""
deriving DecidableEq

/-- The Go struct type of ProductData.Product.Images; every field starts at its zero value. -/
structure ProductData_Product_Images where
  Link : String := ""
deriving DecidableEq

/-- The Go struct type of ProductData.Product.Attributes; every field starts at its zero value. -/
structure ProductData_Product_Attributes where
  Name : String := ""
  Value : String := ""
deriving DecidableEq

/-- The Go struct type of ProductData.Product.TopReviews.Date; every field starts at its zero value. -/
structure ProductData_Product_TopReviews_Date where
  Raw : String := ""
  Utc : GoTime := {}
deriving DecidableEq

/-- The Go struct type of ProductData.Product.TopReviews.Profile; every field starts at its zero value. -/
structure ProductData_Product_TopReviews_Profile where
  Name : String := ""
  Link : String := ""
  ID : String := ""
deriving DecidableEq

/-- The Go struct type of ProductData.Product.TopReviews.Profile0; every field starts at its zero value. -/
structure ProductData_Product_TopReviews_Profile0 where
  Name : String := ""
deriving DecidableEq

/-- The Go struct type of ProductData.Product.TopReviews.Profile1; every field starts at its zero value. -/
structure ProductData_Product_TopReviews_Profile1 where
  Name : String := ""
deriving DecidableEq

/-- The Go struct type of ProductData.Product.TopReviews.Profile2; every field starts at its zero value. -/
structure ProductData_Product_TopReviews_Profile2 where
  Name : String := ""
deriving DecidableEq

/-- The Go struct type of ProductData.Product.TopReviews.Profile3; every field starts at its zero value. -/
structure ProductData_Product_TopReviews_Profile3 where
  Name : String := ""
  Image : String := ""
deriving DecidableEq

/-- The Go struct type of ProductData.Product.TopReviews.Profile4; every field starts at its zero value. -/
structure ProductData_Product_TopReviews_Profile4 where
  Name : String := ""
deriving DecidableEq

/-- The Go struct type of ProductData.Product.TopReviews; every field starts at its zero value. -/
structure ProductData_Product_TopReviews where
  ID : String := ""
  Title : String := ""
  Body : String := ""
  BodyHTML : String := ""
  Link : String := ""
  Rating : Int := 0
  Date : ProductData_Product_TopReviews_Date := {}
  Profile : ProductData_Product_TopReviews_Profile := {}
  VineProgram : Bool := false
  VerifiedPurchase : Bool := false
  ReviewCountry : String := ""
  IsGlobalReview : Bool := false
  HelpfulVotes : Int := 0
  Profile0 : ProductData_Product_TopReviews_Profile0 := {}
  Profile1 : ProductData_Product_TopReviews_Profile1 := {}
  Profile2 : ProductData_Product_TopReviews_Profile2 := {}
  Profile3 : ProductData_Product_TopReviews_Profile3 := {}
  Profile4 : ProductData_Product_TopReviews_Profile4 := {}
deriving DecidableEq

/-- The Go struct type of ProductData.Product.BuyboxWinner.MaximumOrderQuantity; every field starts at its zero value. -/
structure ProductData_Product_BuyboxWinner_MaximumOrderQuantity where
  Value : Int := 0
  HardMaximum : Bool := false
deriving DecidableEq

/-- The Go struct type of ProductData.Product.BuyboxWinner.SecondaryBuybox.Price; every field starts at its zero value. -/
structure ProductData_Product_BuyboxWinner_SecondaryBuybox_Price where
  Symbol : String := ""
  Value : GoFloat64 := {}
  Currency : String := ""
  Raw : String := ""
deriving DecidableEq

/-- The Go struct type of ProductData.Product.BuyboxWinner.SecondaryBuybox.Availability; every field starts at its zero value. -/
structure ProductData_Product_BuyboxWinner_SecondaryBuybox_Availability where
  Raw : String := ""
deriving DecidableEq

/-- The Go struct type of ProductData.Product.BuyboxWinner.SecondaryBuybox; every field starts at its zero value. -/
structure ProductData_Product_BuyboxWinner_SecondaryBuybox where
  OfferID : String := ""
  Caption : String := ""
  Price : ProductData_Product_BuyboxWinner_SecondaryBuybox_Price := {}
  Availability : ProductData_Product_BuyboxWinner_SecondaryBuybox_Availability := {}
deriving DecidableEq

/-- The Go struct type of ProductData.Product.BuyboxWinner.NewOffersFrom; every field starts at its zero value. -/
structure ProductData_Product_BuyboxWinner_NewOffersFrom where
  Value : GoFloat64 := {}
  Currency : String := ""
  Symbol : String := ""
  Raw : String := ""
deriving DecidableEq

/-- The Go struct type of ProductData.Product.BuyboxWinner.UsedOffersFrom; every field starts at its zero value. -/
structure ProductData_Product_BuyboxWinner_UsedOffersFrom where
  Value : GoFloat64 := {}
  Currency : String := ""
  Symbol : String := ""
  Raw : String := ""
deriving DecidableEq

/-- The Go struct type of ProductData.Product.BuyboxWinner.Condition; every field starts at its zero value. -/
structure ProductData_Product_BuyboxWinner_Condition where
  IsNew : Bool := false
deriving DecidableEq

/-- The Go struct type of ProductData.Product.BuyboxWinner.Availability; every field starts at its zero value. -/
structure ProductData_Product_BuyboxWinner_Availability where
  Type_ : String := ""
  Raw : String := ""
  DispatchDays : Int := 0
  StockLevel : Int := 0
deriving DecidableEq

/-- The Go struct type of ProductData.Product.BuyboxWinner.Fulfillment.StandardDelivery; every field starts at its zero value. -/
structure ProductData_Product_BuyboxWinner_Fulfillment_StandardDelivery where
  Date : String := ""
  Name : String := ""
deriving DecidableEq

/-- The Go struct type of ProductData.Product.BuyboxWinner.Fulfillment.FastestDelivery; every field starts at its zero value. -/
structure ProductData_Product_BuyboxWinner_Fulfillment_FastestDelivery where
  Date : String := ""
  Name : String := ""
deriving DecidableEq

/-- The Go struct type of ProductData.Product.BuyboxWinner.Fulfillment; every field starts at its zero value. -/
structure ProductData_Product_BuyboxWinner_Fulfillment where
  Type_ : String := ""
  StandardDelivery : ProductData_Product_BuyboxWinner_Fulfillment_StandardDelivery := {}
  FastestDelivery : ProductData_Product_BuyboxWinner_Fulfillment_FastestDelivery := {}
  IsSoldByAmazon : Bool := false
  IsFulfilledByAmazon : Bool := false
  IsFulfilledByThirdParty : Bool := false
  IsSoldByThirdParty : Bool := false
deriving DecidableEq

/-- The Go struct type of ProductData.Product.BuyboxWinner.Price; every field starts at its zero value. -/
structure ProductData_Product_BuyboxWinner_Price where
  Symbol : String := ""
  Value : GoFloat64 := {}
  Currency : String := ""
  Raw : String := ""
deriving DecidableEq

/-- The Go struct type of ProductData.Product.BuyboxWinner.Shipping; every field starts at its zero value. -/
structure ProductData_Product_BuyboxWinner_Shipping where
  Raw : String := ""
deriving DecidableEq

/-- The Go struct type of ProductData.Product.BuyboxWinner; every field starts at its zero value. -/
structure ProductData_Product_BuyboxWinner where
  MaximumOrderQuantity : ProductData_Product_BuyboxWinner_MaximumOrderQuantity := {}
  SecondaryBuybox : ProductData_Product_BuyboxWinner_SecondaryBuybox := {}
  OfferID : String := ""
  NewOffersCount : Int := 0
  NewOffersFrom : ProductData_Product_BuyboxWinner_NewOffersFrom := {}
  UsedOffersCount : Int := 0
  UsedOffersFrom : ProductData_Product_BuyboxWinner_UsedOffersFrom := {}
  IsPrime : Bool := false
  IsAmazonFresh : Bool := false
  Condition : ProductData_Product_BuyboxWinner_Condition := {}
  Availability : ProductData_Product_BuyboxWinner_Availability := {}
  Fulfillment : ProductData_Product_BuyboxWinner_Fulfillment := {}
  Price : ProductData_Product_BuyboxWinner_Price := {}
  Shipping : ProductData_Product_BuyboxWinner_Shipping := {}
deriving DecidableEq

/-- The Go struct type of ProductData.Product.MoreBuyingChoices.Price; every field starts at its zero value. -/
structure ProductData_Product_MoreBuyingChoices_Price where
  Symbol : String := ""
  Value : GoFloat64 := {}
  Currency : String := ""
  Raw : String := ""
deriving DecidableEq

/-- The Go struct type of ProductData.Product.MoreBuyingChoices; every field starts at its zero value. -/
structure ProductData_Product_MoreBuyingChoices where
  Price : ProductData_Product_MoreBuyingChoices_Price := {}
  SellerName : String := ""
  SellerLink : String := ""
  FreeShipping : Bool := false
  Position : Int := 0
deriving DecidableEq

/-- The Go struct type of ProductData.Product.Specifications; every field starts at its zero value. -/
structure ProductData_Product_Specifications where
  Name : String := ""
  Value : String := ""
deriving DecidableEq

/-- The Go struct type of ProductData.Product.BestsellersRank; every field starts at its zero value. -/
structure ProductData_Product_BestsellersRank where
  Category : String := ""
  Rank : Int := 0
  Link : String := ""
deriving DecidableEq

/-- The Go struct type of ProductData.Product; every field starts at its zero value. -/
structure ProductData_Product where
  Title : String := ""
  SearchAlias : ProductData_Product_SearchAlias := {}
  Keywords : String := ""
  KeywordsList : List String := []
  Asin : String := ""
  Link : String := ""
  SellOnAmazon : Bool := false
  Variants : List ProductVariant := []
  VariantAsinsFlat : String := ""
  Authors : List ProductData_Product_Authors := []
  Format : String := ""
  Categories : List ProductData_Product_Categories := []
  CategoriesFlat : String := ""
  SubTitle : ProductData_Product_SubTitle := {}
  MarketplaceID : String := ""
  Rating : GoFloat64 := {}
  RatingBreakdown : ProductData_Product_RatingBreakdown := {}
  RatingsTotal : Int := 0
  BookDescription : String := ""
  EditorialReviews : List ProductData_Product_EditorialReviews := []
  EditorialReviewsFlat : String := ""
  MainImage : ProductData_Product_MainImage := {}
  Images : List ProductData_Product_Images := []
  ImagesCount : Int := 0
  ImagesFlat : String := ""
  IsBundle : Bool := false
  Attributes : List ProductData_Product_Attributes := []
  TopReviews : List ProductData_Product_TopReviews := []
  BuyboxWinner : ProductData_Product_BuyboxWinner := {}
  MoreBuyingChoices : List ProductData_Product_MoreBuyingChoices := []
  Specifications : List ProductData_Product_Specifications := []
  SpecificationsFlat : String := ""
  BestsellersRank : List ProductData_Product_BestsellersRank := []
  PublicationDate : String := ""
  Publisher : String := ""
  Isbn10 : String := ""
  Isbn13 : String := ""
  Language : String := ""
  Weight : String := ""
  BestsellersRankFlat : String := ""
deriving DecidableEq

/-- The Go struct type of ProductData.FrequentlyBoughtTogether.TotalPrice; every field starts at its zero value. -/
structure ProductData_FrequentlyBoughtTogether_TotalPrice where
  Symbol : String := ""
  Value : GoFloat64 := {}
  Currency : String := ""
  Raw : String := ""
deriving DecidableEq

/-- The Go struct type of ProductData.FrequentlyBoughtTogether.Products.Price; every field starts at its zero value. -/
structure ProductData_FrequentlyBoughtTogether_Products_Price where
  Symbol : String := ""
  Value : GoFloat64 := {}
  Currency : String := ""
  Raw : String := ""
deriving DecidableEq

/-- The Go struct type of ProductData.FrequentlyBoughtTogether.Products; every field starts at its zero value. -/
structure ProductData_FrequentlyBoughtTogether_Products where
  Asin : String := ""
  Title : String := ""
  Link : String := ""
  Price : ProductData_FrequentlyBoughtTogether_Products_Price := {}
  Image : String := ""
deriving DecidableEq

/-- The Go struct type of ProductData.FrequentlyBoughtTogether; every field starts at its zero value. -/
structure ProductData_FrequentlyBoughtTogether where
  TotalPrice : ProductData_FrequentlyBoughtTogether_TotalPrice := {}
  Products : List ProductData_FrequentlyBoughtTogether_Products := []
deriving DecidableEq

/-- The Go struct type of ProductData.AlsoBought.Price; every field starts at its zero value. -/
structure ProductData_AlsoBought_Price where
  Symbol : String := ""
  Value : GoFloat64 := {}
  Currency : String := ""
  Raw : String := ""
deriving DecidableEq

/-- The Go struct type of ProductData.AlsoBought; every field starts at its zero value. -/
structure ProductData_AlsoBought where
  Title : String := ""
  Asin : String := ""
  Link : String := ""
  Image : String := ""
  Rating : GoFloat32 := {}
  RatingsTotal : GoFloat32 := {}
  Price : ProductData_AlsoBought_Price := {}
deriving DecidableEq

/-- The Go struct type of ProductData; every field starts at its zero value. -/
structure ProductData where
  RequestInfo : ProductData_RequestInfo := {}
  RequestParameters : ProductData_RequestParameters := {}
  RequestMetadata : ProductData_RequestMetadata := {}
  Product : ProductData_Product := {}
  FrequentlyBoughtTogether : ProductData_FrequentlyBoughtTogether := {}
  AlsoBought : List ProductData_AlsoBought := []
deriving DecidableEq

/-! ## The JSON view of the record: field names and options from the struct tags -/

/-- Fields of ProductVariant.Price as encoding/json sees them, in declaration order. -/
def ProductVariant_Price.fields : List (FieldCodec ProductVariant_Price) := [
    field "Symbol" "symbol" false stringCodec (·.Symbol) (fun x v => { x with Symbol := v }),
    field "Value" "value" false float64Codec (·.Value) (fun x v => { x with Value := v }),
    field "Currency" "currency" false stringCodec (·.Currency) (fun x v => { x with Currency := v }),
    field "Raw" "raw" false stringCodec (·.Raw) (fun x v => { x with Raw := v })]

/-- How encoding/json reads and writes ProductVariant.Price. -/
def ProductVariant_Price.codec : Codec ProductVariant_Price := structCodec ProductVariant_Price.fields

/-- Fields of ProductVariant as encoding/json sees them, in declaration order. -/
def ProductVariant.fields : List (FieldCodec ProductVariant) := [
    field "Asin" "asin" false stringCodec (·.Asin) (fun x v => { x with Asin := v }),
    field "Link" "link" false stringCodec (·.Link) (fun x v => { x with Link := v }),
    field "IsCurrentProduct" "is_current_product" false boolCodec
      (·.IsCurrentProduct) (fun x v => { x with IsCurrentProduct := v }),
    field "Title" "title" false stringCodec (·.Title) (fun x v => { x with Title := v }),
    field "Price" "price" false ProductVariant_Price.codec
      (·.Price) (fun x v => { x with Price := v })]

/-- How encoding/json reads and writes ProductVariant. -/
def ProductVariant.codec : Codec ProductVariant := structCodec ProductVariant.fields

/-- Fields of ProductData.RequestInfo as encoding/json sees them, in declaration order. -/
def ProductData_RequestInfo.fields : List (FieldCodec ProductData_RequestInfo) := [
    field "Success" "success" false boolCodec (·.Success) (fun x v => { x with Success := v }),
    field "CreditsUsed" "credits_used" false intCodec
      (·.CreditsUsed) (fun x v => { x with CreditsUsed := v }),
    field "CreditsUsedThisRequest" "credits_used_this_request" false intCodec
      (·.CreditsUsedThisRequest) (fun x v => { x with CreditsUsedThisRequest := v }),
    field "CreditsRemaining" "credits_remaining" false intCodec
      (·.CreditsRemaining) (fun x v => { x with CreditsRemaining := v }),
    field "CreditsResetAt" "credits_reset_at" false timeCodec
      (·.CreditsResetAt) (fun x v => { x with CreditsResetAt := v })]

/-- How encoding/json reads and writes ProductData.RequestInfo. -/
def ProductData_RequestInfo.codec : Codec ProductData_RequestInfo := structCodec ProductData_RequestInfo.fields

/-- Fields of ProductData.RequestParameters as encoding/json sees them, in declaration order. -/
def ProductData_RequestParameters.fields : List (FieldCodec ProductData_RequestParameters) := [
    field "AmazonDomain" "amazon_domain" false stringCodec
      (·.AmazonDomain) (fun x v => { x with AmazonDomain := v }),
    field "Type" "type" false stringCodec (·.Type_) (fun x v => { x with Type_ := v }),
    field "Gtin" "gtin" false stringCodec (·.Gtin) (fun x v => { x with Gtin := v })]

/-- How encoding/json reads and writes ProductData.RequestParameters. -/
def ProductData_RequestParameters.codec : Codec ProductData_RequestParameters := structCodec ProductData_RequestParameters.fields

/-- Fields of ProductData.RequestMetadata as encoding/json sees them, in declaration order. -/
def ProductData_RequestMetadata.fields : List (FieldCodec ProductData_RequestMetadata) := [
    field "CreatedAt" "created_at" false timeCodec
      (·.CreatedAt) (fun x v => { x with CreatedAt := v }),
    field "ProcessedAt" "processed_at" false timeCodec
      (·.ProcessedAt) (fun x v => { x with ProcessedAt := v }),
    field "TotalTimeTaken" "total_time_taken" false float64Codec
      (·.TotalTimeTaken) (fun x v => { x with TotalTimeTaken := v }),
    field "AmazonURL" "amazon_url" false stringCodec
      (·.AmazonURL) (fun x v => { x with AmazonURL := v })]

/-- How encoding/json reads and writes ProductData.RequestMetadata. -/
def ProductData_RequestMetadata.codec : Codec ProductData_RequestMetadata := structCodec ProductData_RequestMetadata.fields

/-- Fields of ProductData.Product.SearchAlias as encoding/json sees them, in declaration order. -/
def ProductData_Product_SearchAlias.fields : List (FieldCodec ProductData_Product_SearchAlias) := [
    field "Title" "title" false stringCodec (·.Title) (fun x v => { x with Title := v }),
    field "Value" "value" false stringCodec (·.Value) (fun x v => { x with Value := v })]

/-- How encoding/json reads and writes ProductData.Product.SearchAlias. -/
def ProductData_Product_SearchAlias.codec : Codec ProductData_Product_SearchAlias := structCodec ProductData_Product_SearchAlias.fields

/-- Fields of ProductData.Product.Authors as encoding/json sees them, in declaration order. -/
def ProductData_Product_Authors.fields : List (FieldCodec ProductData_Product_Authors) := [
    field "Name" "name" false stringCodec (·.Name) (fun x v => { x with Name := v }),
    field "Link" "link" false stringCodec (·.Link) (fun x v => { x with Link := v }),
    field "Asin" "asin" false stringCodec (·.Asin) (fun x v => { x with Asin := v })]

/-- How encoding/json reads and writes ProductData.Product.Authors. -/
def ProductData_Product_Authors.codec : Codec ProductData_Product_Authors := structCodec ProductData_Product_Authors.fields

/-- Fields of ProductData.Product.Categories as encoding/json sees them, in declaration order. -/
def ProductData_Product_Categories.fields : List (FieldCodec ProductData_Product_Categories) := [
    field "Name" "name" false stringCodec (·.Name) (fun x v => { x with Name := v }),
    field "Link" "link" false stringCodec (·.Link) (fun x v => { x with Link := v }),
    field "CategoryID" "category_id" false stringCodec
      (·.CategoryID) (fun x v => { x with CategoryID := v })]

/-- How encoding/json reads and writes ProductData.Product.Categories. -/
def ProductData_Product_Categories.codec : Codec ProductData_Product_Categories := structCodec ProductData_Product_Categories.fields

/-- Fields of ProductData.Product.SubTitle as encoding/json sees them, in declaration order. -/
def ProductData_Product_SubTitle.fields : List (FieldCodec ProductData_Product_SubTitle) := [
    field "Text" "text" false stringCodec (·.Text) (fun x v => { x with Text := v }),
    field "Link" "link" false stringCodec (·.Link) (fun x v => { x with Link := v })]

/-- How encoding/json reads and writes ProductData.Product.SubTitle. -/
def ProductData_Product_SubTitle.codec : Codec ProductData_Product_SubTitle := structCodec ProductData_Product_SubTitle.fields

/-- Fields of ProductData.Product.RatingBreakdown.FiveStar as encoding/json sees them, in declaration order. -/
def ProductData_Product_RatingBreakdown_FiveStar.fields : List (FieldCodec ProductData_Product_RatingBreakdown_FiveStar) := [
    field "Percentage" "percentage" false float32Codec
      (·.Percentage) (fun x v => { x with Percentage := v }),
    field "Count" "count" false intCodec (·.Count) (fun x v => { x with Count := v })]

/-- How encoding/json reads and writes ProductData.Product.RatingBreakdown.FiveStar. -/
def ProductData_Product_RatingBreakdown_FiveStar.codec : Codec ProductData_Product_RatingBreakdown_FiveStar := structCodec ProductData_Product_RatingBreakdown_FiveStar.fields

/-- Fields of ProductData.Product.RatingBreakdown.FourStar as encoding/json sees them, in declaration order. -/
def ProductData_Product_RatingBreakdown_FourStar.fields : List (FieldCodec ProductData_Product_RatingBreakdown_FourStar) := [
    field "Percentage" "percentage" false float32Codec
      (·.Percentage) (fun x v => { x with Percentage := v }),
    field "Count" "count" false intCodec (·.Count) (fun x v => { x with Count := v })]

/-- How encoding/json reads and writes ProductData.Product.RatingBreakdown.FourStar. -/
def ProductData_Product_RatingBreakdown_FourStar.codec : Codec ProductData_Product_RatingBreakdown_FourStar := structCodec ProductData_Product_RatingBreakdown_FourStar.fields

/-- Fields of ProductData.Product.RatingBreakdown.ThreeStar as encoding/json sees them, in declaration order. -/
def ProductData_Product_RatingBreakdown_ThreeStar.fields : List (FieldCodec ProductData_Product_RatingBreakdown_ThreeStar) := [
    field "Percentage" "percentage" false float32Codec
      (·.Percentage) (fun x v => { x with Percentage := v }),
    field "Count" "count" false intCodec (·.Count) (fun x v => { x with Count := v })]

/-- How encoding/json reads and writes ProductData.Product.RatingBreakdown.ThreeStar. -/
def ProductData_Product_RatingBreakdown_ThreeStar.codec : Codec ProductData_Product_RatingBreakdown_ThreeStar := structCodec ProductData_Product_RatingBreakdown_ThreeStar.fields

/-- Fields of ProductData.Product.RatingBreakdown.TwoStar as encoding/json sees them, in declaration order. -/
def ProductData_Product_RatingBreakdown_TwoStar.fields : List (FieldCodec ProductData_Product_RatingBreakdown_TwoStar) := [
    field "Percentage" "percentage" false float32Codec
      (·.Percentage) (fun x v => { x with Percentage := v }),
    field "Count" "count" false intCodec (·.Count) (fun x v => { x with Count := v })]

/-- How encoding/json reads and writes ProductData.Product.RatingBreakdown.TwoStar. -/
def ProductData_Product_RatingBreakdown_TwoStar.codec : Codec ProductData_Product_RatingBreakdown_TwoStar := structCodec ProductData_Product_RatingBreakdown_TwoStar.fields

/-- Fields of ProductData.Product.RatingBreakdown.OneStar as encoding/json sees them, in declaration order. -/
def ProductData_Product_RatingBreakdown_OneStar.fields : List (FieldCodec ProductData_Product_RatingBreakdown_OneStar) := [
    field "Percentage" "percentage" false float32Codec
      (·.Percentage) (fun x v => { x with Percentage := v }),
    field "Count" "count" false intCodec (·.Count) (fun x v => { x with Count := v })]

/-- How encoding/json reads and writes ProductData.Product.RatingBreakdown.OneStar. -/
def ProductData_Product_RatingBreakdown_OneStar.codec : Codec ProductData_Product_RatingBreakdown_OneStar := structCodec ProductData_Product_RatingBreakdown_OneStar.fields

/-- Fields of ProductData.Product.RatingBreakdown as encoding/json sees them, in declaration order. -/
def ProductData_Product_RatingBreakdown.fields : List (FieldCodec ProductData_Product_RatingBreakdown) := [
    field "FiveStar" "five_star" false ProductData_Product_RatingBreakdown_FiveStar.codec
      (·.FiveStar) (fun x v => { x with FiveStar := v }),
    field "FourStar" "four_star" false ProductData_Product_RatingBreakdown_FourStar.codec
      (·.FourStar) (fun x v => { x with FourStar := v }),
    field "ThreeStar" "three_star" false ProductData_Product_RatingBreakdown_ThreeStar.codec
      (·.ThreeStar) (fun x v => { x with ThreeStar := v }),
    field "TwoStar" "two_star" false ProductData_Product_RatingBreakdown_TwoStar.codec
      (·.TwoStar) (fun x v => { x with TwoStar := v }),
    field "OneStar" "one_star" false ProductData_Product_RatingBreakdown_OneStar.codec
      (·.OneStar) (fun x v => { x with OneStar := v })]

/-- How encoding/json reads and writes ProductData.Product.RatingBreakdown. -/
def ProductData_Product_RatingBreakdown.codec : Codec ProductData_Product_RatingBreakdown := structCodec ProductData_Product_RatingBreakdown.fields

/-- Fields of ProductData.Product.EditorialReviews as encoding/json sees them, in declaration order. -/
def ProductData_Product_EditorialReviews.fields : List (FieldCodec ProductData_Product_EditorialReviews) := [
    field "Title" "title" false stringCodec (·.Title) (fun x v => { x with Title := v }),
    field "Body" "body" false stringCodec (·.Body) (fun x v => { x with Body := v })]

/-- How encoding/json reads and writes ProductData.Product.EditorialReviews. -/
def ProductData_Product_EditorialReviews.codec : Codec ProductData_Product_EditorialReviews := structCodec ProductData_Product_EditorialReviews.fields

/-- Fields of ProductData.Product.MainImage as encoding/json sees them, in declaration order. -/
def ProductData_Product_MainImage.fields : List (FieldCodec ProductData_Product_MainImage) := [
    field "Link" "link" false stringCodec (·.Link) (fun x v => { x with Link := v })]

/-- How encoding/json reads and writes ProductData.Product.MainImage. -/
def ProductData_Product_MainImage.codec : Codec ProductData_Product_MainImage := structCodec ProductData_Product_MainImage.fields

/-- Fields of ProductData.Product.Images as encoding/json sees them, in declaration order. -/
def ProductData_Product_Images.fields : List (FieldCodec ProductData_Product_Images) := [
    field "Link" "link" false stringCodec (·.Link) (fun x v => { x with Link := v })]

/-- How encoding/json reads and writes ProductData.Product.Images. -/
def ProductData_Product_Images.codec : Codec ProductData_Product_Images := structCodec ProductData_Product_Images.fields

/-- Fields of ProductData.Product.Attributes as encoding/json sees them, in declaration order. -/
def ProductData_Product_Attributes.fields : List (FieldCodec ProductData_Product_Attributes) := [
    field "Name" "name" false stringCodec (·.Name) (fun x v => { x with Name := v }),
    field "Value" "value" false stringCodec (·.Value) (fun x v => { x with Value := v })]

/-- How encoding/json reads and writes ProductData.Product.Attributes. -/
def ProductData_Product_Attributes.codec : Codec ProductData_Product_Attributes := structCodec ProductData_Product_Attributes.fields

/-- Fields of ProductData.Product.TopReviews.Date as encoding/json sees them, in declaration order. -/
def ProductData_Product_TopReviews_Date.fields : List (FieldCodec ProductData_Product_TopReviews_Date) := [
    field "Raw" "raw" false stringCodec (·.Raw) (fun x v => { x with Raw := v }),
    field "Utc" "utc" false timeCodec (·.Utc) (fun x v => { x with Utc := v })]

/-- How encoding/json reads and writes ProductData.Product.TopReviews.Date. -/
def ProductData_Product_TopReviews_Date.codec : Codec ProductData_Product_TopReviews_Date := structCodec ProductData_Product_TopReviews_Date.fields

/-- Fields of ProductData.Product.TopReviews.Profile as encoding/json sees them, in declaration order. -/
def ProductData_Product_TopReviews_Profile.fields : List (FieldCodec ProductData_Product_TopReviews_Profile) := [
    field "Name" "name" false stringCodec (·.Name) (fun x v => { x with Name := v }),
    field "Link" "link" false stringCodec (·.Link) (fun x v => { x with Link := v }),
    field "ID" "id" false stringCodec (·.ID) (fun x v => { x with ID := v })]

/-- How encoding/json reads and writes ProductData.Product.TopReviews.Profile. -/
def ProductData_Product_TopReviews_Profile.codec : Codec ProductData_Product_TopReviews_Profile := structCodec ProductData_Product_TopReviews_Profile.fields

/-- Fields of ProductData.Product.TopReviews.Profile0 as encoding/json sees them, in declaration order. -/
def ProductData_Product_TopReviews_Profile0.fields : List (FieldCodec ProductData_Product_TopReviews_Profile0) := [
    field "Name" "name" false stringCodec (·.Name) (fun x v => { x with Name := v })]

/-- How encoding/json reads and writes ProductData.Product.TopReviews.Profile0. -/
def ProductData_Product_TopReviews_Profile0.codec : Codec ProductData_Product_TopReviews_Profile0 := structCodec ProductData_Product_TopReviews_Profile0.fields

/-- Fields of ProductData.Product.TopReviews.Profile1 as encoding/json sees them, in declaration order. -/
def ProductData_Product_TopReviews_Profile1.fields : List (FieldCodec ProductData_Product_TopReviews_Profile1) := [
    field "Name" "name" false stringCodec (·.Name) (fun x v => { x with Name := v })]

/-- How encoding/json reads and writes ProductData.Product.TopReviews.Profile1. -/
def ProductData_Product_TopReviews_Profile1.codec : Codec ProductData_Product_TopReviews_Profile1 := structCodec ProductData_Product_TopReviews_Profile1.fields

/-- Fields of ProductData.Product.TopReviews.Profile2 as encoding/json sees them, in declaration order. -/
def ProductData_Product_TopReviews_Profile2.fields : List (FieldCodec ProductData_Product_TopReviews_Profile2) := [
    field "Name" "name" false stringCodec (·.Name) (fun x v => { x with Name := v })]

/-- How encoding/json reads and writes ProductData.Product.TopReviews.Profile2. -/
def ProductData_Product_TopReviews_Profile2.codec : Codec ProductData_Product_TopReviews_Profile2 := structCodec ProductData_Product_TopReviews_Profile2.fields

/-- Fields of ProductData.Product.TopReviews.Profile3 as encoding/json sees them, in declaration order. -/
def ProductData_Product_TopReviews_Profile3.fields : List (FieldCodec ProductData_Product_TopReviews_Profile3) := [
    field "Name" "name" false stringCodec (·.Name) (fun x v => { x with Name := v }),
    field "Image" "image" false stringCodec (·.Image) (fun x v => { x with Image := v })]

/-- How encoding/json reads and writes ProductData.Product.TopReviews.Profile3. -/
def ProductData_Product_TopReviews_Profile3.codec : Codec ProductData_Product_TopReviews_Profile3 := structCodec ProductData_Product_TopReviews_Profile3.fields

/-- Fields of ProductData.Product.TopReviews.Profile4 as encoding/json sees them, in declaration order. -/
def ProductData_Product_TopReviews_Profile4.fields : List (FieldCodec ProductData_Product_TopReviews_Profile4) := [
    field "Name" "name" false stringCodec (·.Name) (fun x v => { x with Name := v })]

/-- How encoding/json reads and writes ProductData.Product.TopReviews.Profile4. -/
def ProductData_Product_TopReviews_Profile4.codec : Codec ProductData_Product_TopReviews_Profile4 := structCodec ProductData_Product_TopReviews_Profile4.fields

/-- Fields of ProductData.Product.TopReviews as encoding/json sees them, in declaration order. -/
def ProductData_Product_TopReviews.fields : List (FieldCodec ProductData_Product_TopReviews) := [
    field "ID" "id" false stringCodec (·.ID) (fun x v => { x with ID := v }),
    field "Title" "title" false stringCodec (·.Title) (fun x v => { x with Title := v }),
    field "Body" "body" false stringCodec (·.Body) (fun x v => { x with Body := v }),
    field "BodyHTML" "body_html" false stringCodec
      (·.BodyHTML) (fun x v => { x with BodyHTML := v }),
    field "Link" "link" true stringCodec (·.Link) (fun x v => { x with Link := v }),
    field "Rating" "rating" false intCodec (·.Rating) (fun x v => { x with Rating := v }),
    field "Date" "date" false ProductData_Product_TopReviews_Date.codec
      (·.Date) (fun x v => { x with Date := v }),
    field "Profile" "profile" true ProductData_Product_TopReviews_Profile.codec
      (·.Profile) (fun x v => { x with Profile := v }),
    field "VineProgram" "vine_program" false boolCodec
      (·.VineProgram) (fun x v => { x with VineProgram := v }),
    field "VerifiedPurchase" "verified_purchase" false boolCodec
      (·.VerifiedPurchase) (fun x v => { x with VerifiedPurchase := v }),
    field "ReviewCountry" "review_country" false stringCodec
      (·.ReviewCountry) (fun x v => { x with ReviewCountry := v }),
    field "IsGlobalReview" "is_global_review" false boolCodec
      (·.IsGlobalReview) (fun x v => { x with IsGlobalReview := v }),
    field "HelpfulVotes" "helpful_votes" true intCodec
      (·.HelpfulVotes) (fun x v => { x with HelpfulVotes := v }),
    field "Profile0" "profile" true ProductData_Product_TopReviews_Profile0.codec
      (·.Profile0) (fun x v => { x with Profile0 := v }),
    field "Profile1" "profile" true ProductData_Product_TopReviews_Profile1.codec
      (·.Profile1) (fun x v => { x with Profile1 := v }),
    field "Profile2" "profile" true ProductData_Product_TopReviews_Profile2.codec
      (·.Profile2) (fun x v => { x with Profile2 := v }),
    field "Profile3" "profile" true ProductData_Product_TopReviews_Profile3.codec
      (·.Profile3) (fun x v => { x with Profile3 := v }),
    field "Profile4" "profile" true ProductData_Product_TopReviews_Profile4.codec
      (·.Profile4) (fun x v => { x with Profile4 := v })]

/-- How encoding/json reads and writes ProductData.Product.TopReviews. -/
def ProductData_Product_TopReviews.codec : Codec ProductData_Product_TopReviews := structCodec ProductData_Product_TopReviews.fields

/-- Fields of ProductData.Product.BuyboxWinner.MaximumOrderQuantity as encoding/json sees them, in declaration order. -/
def ProductData_Product_BuyboxWinner_MaximumOrderQuantity.fields : List (FieldCodec ProductData_Product_BuyboxWinner_MaximumOrderQuantity) := [
    field "Value" "value" false intCodec (·.Value) (fun x v => { x with Value := v }),
    field "HardMaximum" "hard_maximum" false boolCodec
      (·.HardMaximum) (fun x v => { x with HardMaximum := v })]

/-- How encoding/json reads and writes ProductData.Product.BuyboxWinner.MaximumOrderQuantity. -/
def ProductData_Product_BuyboxWinner_MaximumOrderQuantity.codec : Codec ProductData_Product_BuyboxWinner_MaximumOrderQuantity := structCodec ProductData_Product_BuyboxWinner_MaximumOrderQuantity.fields

/-- Fields of ProductData.Product.BuyboxWinner.SecondaryBuybox.Price as encoding/json sees them, in declaration order. -/
def ProductData_Product_BuyboxWinner_SecondaryBuybox_Price.fields : List (FieldCodec ProductData_Product_BuyboxWinner_SecondaryBuybox_Price) := [
    field "Symbol" "symbol" false stringCodec (·.Symbol) (fun x v => { x with Symbol := v }),
    field "Value" "value" false float64Codec (·.Value) (fun x v => { x with Value := v }),
    field "Currency" "currency" false stringCodec (·.Currency) (fun x v => { x with Currency := v }),
    field "Raw" "raw" false stringCodec (·.Raw) (fun x v => { x with Raw := v })]

/-- How encoding/json reads and writes ProductData.Product.BuyboxWinner.SecondaryBuybox.Price. -/
def ProductData_Product_BuyboxWinner_SecondaryBuybox_Price.codec : Codec ProductData_Product_BuyboxWinner_SecondaryBuybox_Price := structCodec ProductData_Product_BuyboxWinner_SecondaryBuybox_Price.fields

/-- Fields of ProductData.Product.BuyboxWinner.SecondaryBuybox.Availability as encoding/json sees them, in declaration order. -/
def ProductData_Product_BuyboxWinner_SecondaryBuybox_Availability.fields : List (FieldCodec ProductData_Product_BuyboxWinner_SecondaryBuybox_Availability) := [
    field "Raw" "raw" false stringCodec (·.Raw) (fun x v => { x with Raw := v })]

/-- How encoding/json reads and writes ProductData.Product.BuyboxWinner.SecondaryBuybox.Availability. -/
def ProductData_Product_BuyboxWinner_SecondaryBuybox_Availability.codec : Codec ProductData_Product_BuyboxWinner_SecondaryBuybox_Availability := structCodec ProductData_Product_BuyboxWinner_SecondaryBuybox_Availability.fields

/-- Fields of ProductData.Product.BuyboxWinner.SecondaryBuybox as encoding/json sees them, in declaration order. -/
def ProductData_Product_BuyboxWinner_SecondaryBuybox.fields : List (FieldCodec ProductData_Product_BuyboxWinner_SecondaryBuybox) := [
    field "OfferID" "offer_id" false stringCodec (·.OfferID) (fun x v => { x with OfferID := v }),
    field "Caption" "caption" false stringCodec (·.Caption) (fun x v => { x with Caption := v }),
    field "Price" "price" false ProductData_Product_BuyboxWinner_SecondaryBuybox_Price.codec
      (·.Price) (fun x v => { x with Price := v }),
    field "Availability" "availability" false ProductData_Product_BuyboxWinner_SecondaryBuybox_Availability.codec
      (·.Availability) (fun x v => { x with Availability := v })]

/-- How encoding/json reads and writes ProductData.Product.BuyboxWinner.SecondaryBuybox. -/
def ProductData_Product_BuyboxWinner_SecondaryBuybox.codec : Codec ProductData_Product_BuyboxWinner_SecondaryBuybox := structCodec ProductData_Product_BuyboxWinner_SecondaryBuybox.fields

/-- Fields of ProductData.Product.BuyboxWinner.NewOffersFrom as encoding/json sees them, in declaration order. -/
def ProductData_Product_BuyboxWinner_NewOffersFrom.fields : List (FieldCodec ProductData_Product_BuyboxWinner_NewOffersFrom) := [
    field "Value" "value" false float64Codec (·.Value) (fun x v => { x with Value := v }),
    field "Currency" "currency" false stringCodec (·.Currency) (fun x v => { x with Currency := v }),
    field "Symbol" "symbol" false stringCodec (·.Symbol) (fun x v => { x with Symbol := v }),
    field "Raw" "raw" false stringCodec (·.Raw) (fun x v => { x with Raw := v })]

/-- How encoding/json reads and writes ProductData.Product.BuyboxWinner.NewOffersFrom. -/
def ProductData_Product_BuyboxWinner_NewOffersFrom.codec : Codec ProductData_Product_BuyboxWinner_NewOffersFrom := structCodec ProductData_Product_BuyboxWinner_NewOffersFrom.fields

/-- Fields of ProductData.Product.BuyboxWinner.UsedOffersFrom as encoding/json sees them, in declaration order. -/
def ProductData_Product_BuyboxWinner_UsedOffersFrom.fields : List (FieldCodec ProductData_Product_BuyboxWinner_UsedOffersFrom) := [
    field "Value" "value" false float64Codec (·.Value) (fun x v => { x with Value := v }),
    field "Currency" "currency" false stringCodec (·.Currency) (fun x v => { x with Currency := v }),
    field "Symbol" "symbol" false stringCodec (·.Symbol) (fun x v => { x with Symbol := v }),
    field "Raw" "raw" false stringCodec (·.Raw) (fun x v => { x with Raw := v })]

/-- How encoding/json reads and writes ProductData.Product.BuyboxWinner.UsedOffersFrom. -/
def ProductData_Product_BuyboxWinner_UsedOffersFrom.codec : Codec ProductData_Product_BuyboxWinner_UsedOffersFrom := structCodec ProductData_Product_BuyboxWinner_UsedOffersFrom.fields

/-- Fields of ProductData.Product.BuyboxWinner.Condition as encoding/json sees them, in declaration order. -/
def ProductData_Product_BuyboxWinner_Condition.fields : List (FieldCodec ProductData_Product_BuyboxWinner_Condition) := [
    field "IsNew" "is_new" false boolCodec (·.IsNew) (fun x v => { x with IsNew := v })]

/-- How encoding/json reads and writes ProductData.Product.BuyboxWinner.Condition. -/
def ProductData_Product_BuyboxWinner_Condition.codec : Codec ProductData_Product_BuyboxWinner_Condition := structCodec ProductData_Product_BuyboxWinner_Condition.fields

/-- Fields of ProductData.Product.BuyboxWinner.Availability as encoding/json sees them, in declaration order. -/
def ProductData_Product_BuyboxWinner_Availability.fields : List (FieldCodec ProductData_Product_BuyboxWinner_Availability) := [
    field "Type" "type" false stringCodec (·.Type_) (fun x v => { x with Type_ := v }),
    field "Raw" "raw" false stringCodec (·.Raw) (fun x v => { x with Raw := v }),
    field "DispatchDays" "dispatch_days" false intCodec
      (·.DispatchDays) (fun x v => { x with DispatchDays := v }),
    field "StockLevel" "stock_level" false intCodec
      (·.StockLevel) (fun x v => { x with StockLevel := v })]

/-- How encoding/json reads and writes ProductData.Product.BuyboxWinner.Availability. -/
def ProductData_Product_BuyboxWinner_Availability.codec : Codec ProductData_Product_BuyboxWinner_Availability := structCodec ProductData_Product_BuyboxWinner_Availability.fields

/-- Fields of ProductData.Product.BuyboxWinner.Fulfillment.StandardDelivery as encoding/json sees them, in declaration order. -/
def ProductData_Product_BuyboxWinner_Fulfillment_StandardDelivery.fields : List (FieldCodec ProductData_Product_BuyboxWinner_Fulfillment_StandardDelivery) := [
    field "Date" "date" false stringCodec (·.Date) (fun x v => { x with Date := v }),
    field "Name" "name" false stringCodec (·.Name) (fun x v => { x with Name := v })]

/-- How encoding/json reads and writes ProductData.Product.BuyboxWinner.Fulfillment.StandardDelivery. -/
def ProductData_Product_BuyboxWinner_Fulfillment_StandardDelivery.codec : Codec ProductData_Product_BuyboxWinner_Fulfillment_StandardDelivery := structCodec ProductData_Product_BuyboxWinner_Fulfillment_StandardDelivery.fields

/-- Fields of ProductData.Product.BuyboxWinner.Fulfillment.FastestDelivery as encoding/json sees them, in declaration order. -/
def ProductData_Product_BuyboxWinner_Fulfillment_FastestDelivery.fields : List (FieldCodec ProductData_Product_BuyboxWinner_Fulfillment_FastestDelivery) := [
    field "Date" "date" false stringCodec (·.Date) (fun x v => { x with Date := v }),
    field "Name" "name" false stringCodec (·.Name) (fun x v => { x with Name := v })]

/-- How encoding/json reads and writes ProductData.Product.BuyboxWinner.Fulfillment.FastestDelivery. -/
def ProductData_Product_BuyboxWinner_Fulfillment_FastestDelivery.codec : Codec ProductData_Product_BuyboxWinner_Fulfillment_FastestDelivery := structCodec ProductData_Product_BuyboxWinner_Fulfillment_FastestDelivery.fields

/-- Fields of ProductData.Product.BuyboxWinner.Fulfillment as encoding/json sees them, in declaration order. -/
def ProductData_Product_BuyboxWinner_Fulfillment.fields : List (FieldCodec ProductData_Product_BuyboxWinner_Fulfillment) := [
    field "Type" "type" false stringCodec (·.Type_) (fun x v => { x with Type_ := v }),
    field "StandardDelivery" "standard_delivery" false ProductData_Product_BuyboxWinner_Fulfillment_StandardDelivery.codec
      (·.StandardDelivery) (fun x v => { x with StandardDelivery := v }),
    field "FastestDelivery" "fastest_delivery" false ProductData_Product_BuyboxWinner_Fulfillment_FastestDelivery.codec
      (·.FastestDelivery) (fun x v => { x with FastestDelivery := v }),
    field "IsSoldByAmazon" "is_sold_by_amazon" false boolCodec
      (·.IsSoldByAmazon) (fun x v => { x with IsSoldByAmazon := v }),
    field "IsFulfilledByAmazon" "is_fulfilled_by_amazon" false boolCodec
      (·.IsFulfilledByAmazon) (fun x v => { x with IsFulfilledByAmazon := v }),
    field "IsFulfilledByThirdParty" "is_fulfilled_by_third_party" false boolCodec
      (·.IsFulfilledByThirdParty) (fun x v => { x with IsFulfilledByThirdParty := v }),
    field "IsSoldByThirdParty" "is_sold_by_third_party" false boolCodec
      (·.IsSoldByThirdParty) (fun x v => { x with IsSoldByThirdParty := v })]

/-- How encoding/json reads and writes ProductData.Product.BuyboxWinner.Fulfillment. -/
def ProductData_Product_BuyboxWinner_Fulfillment.codec : Codec ProductData_Product_BuyboxWinner_Fulfillment := structCodec ProductData_Product_BuyboxWinner_Fulfillment.fields

/-- Fields of ProductData.Product.BuyboxWinner.Price as encoding/json sees them, in declaration order. -/
def ProductData_Product_BuyboxWinner_Price.fields : List (FieldCodec ProductData_Product_BuyboxWinner_Price) := [
    field "Symbol" "symbol" false stringCodec (·.Symbol) (fun x v => { x with Symbol := v }),
    field "Value" "value" false float64Codec (·.Value) (fun x v => { x with Value := v }),
    field "Currency" "currency" false stringCodec (·.Currency) (fun x v => { x with Currency := v }),
    field "Raw" "raw" false stringCodec (·.Raw) (fun x v => { x with Raw := v })]

/-- How encoding/json reads and writes ProductData.Product.BuyboxWinner.Price. -/
def ProductData_Product_BuyboxWinner_Price.codec : Codec ProductData_Product_BuyboxWinner_Price := structCodec ProductData_Product_BuyboxWinner_Price.fields

/-- Fields of ProductData.Product.BuyboxWinner.Shipping as encoding/json sees them, in declaration order. -/
def ProductData_Product_BuyboxWinner_Shipping.fields : List (FieldCodec ProductData_Product_BuyboxWinner_Shipping) := [
    field "Raw" "raw" false stringCodec (·.Raw) (fun x v => { x with Raw := v })]

/-- How encoding/json reads and writes ProductData.Product.BuyboxWinner.Shipping. -/
def ProductData_Product_BuyboxWinner_Shipping.codec : Codec ProductData_Product_BuyboxWinner_Shipping := structCodec ProductData_Product_BuyboxWinner_Shipping.fields

/-- Fields of ProductData.Product.BuyboxWinner as encoding/json sees them, in declaration order. -/
def ProductData_Product_BuyboxWinner.fields : List (FieldCodec ProductData_Product_BuyboxWinner) := [
    field "MaximumOrderQuantity" "maximum_order_quantity" false ProductData_Product_BuyboxWinner_MaximumOrderQuantity.codec
      (·.MaximumOrderQuantity) (fun x v => { x with MaximumOrderQuantity := v }),
    field "SecondaryBuybox" "secondary_buybox" false ProductData_Product_BuyboxWinner_SecondaryBuybox.codec
      (·.SecondaryBuybox) (fun x v => { x with SecondaryBuybox := v }),
    field "OfferID" "offer_id" false stringCodec (·.OfferID) (fun x v => { x with OfferID := v }),
    field "NewOffersCount" "new_offers_count" false intCodec
      (·.NewOffersCount) (fun x v => { x with NewOffersCount := v }),
    field "NewOffersFrom" "new_offers_from" false ProductData_Product_BuyboxWinner_NewOffersFrom.codec
      (·.NewOffersFrom) (fun x v => { x with NewOffersFrom := v }),
    field "UsedOffersCount" "used_offers_count" false intCodec
      (·.UsedOffersCount) (fun x v => { x with UsedOffersCount := v }),
    field "UsedOffersFrom" "used_offers_from" false ProductData_Product_BuyboxWinner_UsedOffersFrom.codec
      (·.UsedOffersFrom) (fun x v => { x with UsedOffersFrom := v }),
    field "IsPrime" "is_prime" false boolCodec (·.IsPrime) (fun x v => { x with IsPrime := v }),
    field "IsAmazonFresh" "is_amazon_fresh" false boolCodec
      (·.IsAmazonFresh) (fun x v => { x with IsAmazonFresh := v }),
    field "Condition" "condition" false ProductData_Product_BuyboxWinner_Condition.codec
      (·.Condition) (fun x v => { x with Condition := v }),
    field "Availability" "availability" false ProductData_Product_BuyboxWinner_Availability.codec
      (·.Availability) (fun x v => { x with Availability := v }),
    field "Fulfillment" "fulfillment" false ProductData_Product_BuyboxWinner_Fulfillment.codec
      (·.Fulfillment) (fun x v => { x with Fulfillment := v }),
    field "Price" "price" false ProductData_Product_BuyboxWinner_Price.codec
      (·.Price) (fun x v => { x with Price := v }),
    field "Shipping" "shipping" false ProductData_Product_BuyboxWinner_Shipping.codec
      (·.Shipping) (fun x v => { x with Shipping := v })]

/-- How encoding/json reads and writes ProductData.Product.BuyboxWinner. -/
def ProductData_Product_BuyboxWinner.codec : Codec ProductData_Product_BuyboxWinner := structCodec ProductData_Product_BuyboxWinner.fields

/-- Fields of ProductData.Product.MoreBuyingChoices.Price as encoding/json sees them, in declaration order. -/
def ProductData_Product_MoreBuyingChoices_Price.fields : List (FieldCodec ProductData_Product_MoreBuyingChoices_Price) := [
    field "Symbol" "symbol" false stringCodec (·.Symbol) (fun x v => { x with Symbol := v }),
    field "Value" "value" false float64Codec (·.Value) (fun x v => { x with Value := v }),
    field "Currency" "currency" false stringCodec (·.Currency) (fun x v => { x with Currency := v }),
    field "Raw" "raw" false stringCodec (·.Raw) (fun x v => { x with Raw := v })]

/-- How encoding/json reads and writes ProductData.Product.MoreBuyingChoices.Price. -/
def ProductData_Product_MoreBuyingChoices_Price.codec : Codec ProductData_Product_MoreBuyingChoices_Price := structCodec ProductData_Product_MoreBuyingChoices_Price.fields

/-- Fields of ProductData.Product.MoreBuyingChoices as encoding/json sees them, in declaration order. -/
def ProductData_Product_MoreBuyingChoices.fields : List (FieldCodec ProductData_Product_MoreBuyingChoices) := [
    field "Price" "price" false ProductData_Product_MoreBuyingChoices_Price.codec
      (·.Price) (fun x v => { x with Price := v }),
    field "SellerName" "seller_name" false stringCodec
      (·.SellerName) (fun x v => { x with SellerName := v }),
    field "SellerLink" "seller_link" false stringCodec
      (·.SellerLink) (fun x v => { x with SellerLink := v }),
    field "FreeShipping" "free_shipping" true boolCodec
      (·.FreeShipping) (fun x v => { x with FreeShipping := v }),
    field "Position" "position" false intCodec (·.Position) (fun x v => { x with Position := v })]

/-- How encoding/json reads and writes ProductData.Product.MoreBuyingChoices. -/
def ProductData_Product_MoreBuyingChoices.codec : Codec ProductData_Product_MoreBuyingChoices := structCodec ProductData_Product_MoreBuyingChoices.fields

/-- Fields of ProductData.Product.Specifications as encoding/json sees them, in declaration order. -/
def ProductData_Product_Specifications.fields : List (FieldCodec ProductData_Product_Specifications) := [
    field "Name" "name" false stringCodec (·.Name) (fun x v => { x with Name := v }),
    field "Value" "value" false stringCodec (·.Value) (fun x v => { x with Value := v })]

/-- How encoding/json reads and writes ProductData.Product.Specifications. -/
def ProductData_Product_Specifications.codec : Codec ProductData_Product_Specifications := structCodec ProductData_Product_Specifications.fields

/-- Fields of ProductData.Product.BestsellersRank as encoding/json sees them, in declaration order. -/
def ProductData_Product_BestsellersRank.fields : List (FieldCodec ProductData_Product_BestsellersRank) := [
    field "Category" "category" false stringCodec (·.Category) (fun x v => { x with Category := v }),
    field "Rank" "rank" false intCodec (·.Rank) (fun x v => { x with Rank := v }),
    field "Link" "link" false stringCodec (·.Link) (fun x v => { x with Link := v })]

/-- How encoding/json reads and writes ProductData.Product.BestsellersRank. -/
def ProductData_Product_BestsellersRank.codec : Codec ProductData_Product_BestsellersRank := structCodec ProductData_Product_BestsellersRank.fields

/-- Fields of ProductData.Product as encoding/json sees them, in declaration order. -/
def ProductData_Product.fields : List (FieldCodec ProductData_Product) := [
    field "Title" "title" false stringCodec (·.Title) (fun x v => { x with Title := v }),
    field "SearchAlias" "search_alias" false ProductData_Product_SearchAlias.codec
      (·.SearchAlias) (fun x v => { x with SearchAlias := v }),
    field "Keywords" "keywords" false stringCodec (·.Keywords) (fun x v => { x with Keywords := v }),
    field "KeywordsList" "keywords_list" false (sliceCodec stringCodec "")
      (·.KeywordsList) (fun x v => { x with KeywordsList := v }),
    field "Asin" "asin" false stringCodec (·.Asin) (fun x v => { x with Asin := v }),
    field "Link" "link" false stringCodec (·.Link) (fun x v => { x with Link := v }),
    field "SellOnAmazon" "sell_on_amazon" false boolCodec
      (·.SellOnAmazon) (fun x v => { x with SellOnAmazon := v }),
    field "Variants" "variants" false (sliceCodec ProductVariant.codec {})
      (·.Variants) (fun x v => { x with Variants := v }),
    field "VariantAsinsFlat" "variant_asins_flat" false stringCodec
      (·.VariantAsinsFlat) (fun x v => { x with VariantAsinsFlat := v }),
    field "Authors" "authors" false (sliceCodec ProductData_Product_Authors.codec {})
      (·.Authors) (fun x v => { x with Authors := v }),
    field "Format" "format" false stringCodec (·.Format) (fun x v => { x with Format := v }),
    field "Categories" "categories" false (sliceCodec ProductData_Product_Categories.codec {})
      (·.Categories) (fun x v => { x with Categories := v }),
    field "CategoriesFlat" "categories_flat" false stringCodec
      (·.CategoriesFlat) (fun x v => { x with CategoriesFlat := v }),
    field "SubTitle" "sub_title" false ProductData_Product_SubTitle.codec
      (·.SubTitle) (fun x v => { x with SubTitle := v }),
    field "MarketplaceID" "marketplace_id" false stringCodec
      (·.MarketplaceID) (fun x v => { x with MarketplaceID := v }),
    field "Rating" "rating" false float64Codec (·.Rating) (fun x v => { x with Rating := v }),
    field "RatingBreakdown" "rating_breakdown" false ProductData_Product_RatingBreakdown.codec
      (·.RatingBreakdown) (fun x v => { x with RatingBreakdown := v }),
    field "RatingsTotal" "ratings_total" false intCodec
      (·.RatingsTotal) (fun x v => { x with RatingsTotal := v }),
    field "BookDescription" "book_description" false stringCodec
      (·.BookDescription) (fun x v => { x with BookDescription := v }),
    field "EditorialReviews" "editorial_reviews" false (sliceCodec ProductData_Product_EditorialReviews.codec {})
      (·.EditorialReviews) (fun x v => { x with EditorialReviews := v }),
    field "EditorialReviewsFlat" "editorial_reviews_flat" false stringCodec
      (·.EditorialReviewsFlat) (fun x v => { x with EditorialReviewsFlat := v }),
    field "MainImage" "main_image" false ProductData_Product_MainImage.codec
      (·.MainImage) (fun x v => { x with MainImage := v }),
    field "Images" "images" false (sliceCodec ProductData_Product_Images.codec {})
      (·.Images) (fun x v => { x with Images := v }),
    field "ImagesCount" "images_count" false intCodec
      (·.ImagesCount) (fun x v => { x with ImagesCount := v }),
    field "ImagesFlat" "images_flat" false stringCodec
      (·.ImagesFlat) (fun x v => { x with ImagesFlat := v }),
    field "IsBundle" "is_bundle" false boolCodec (·.IsBundle) (fun x v => { x with IsBundle := v }),
    field "Attributes" "attributes" false (sliceCodec ProductData_Product_Attributes.codec {})
      (·.Attributes) (fun x v => { x with Attributes := v }),
    field "TopReviews" "top_reviews" false (sliceCodec ProductData_Product_TopReviews.codec {})
      (·.TopReviews) (fun x v => { x with TopReviews := v }),
    field "BuyboxWinner" "buybox_winner" false ProductData_Product_BuyboxWinner.codec
      (·.BuyboxWinner) (fun x v => { x with BuyboxWinner := v }),
    field "MoreBuyingChoices" "more_buying_choices" false (sliceCodec ProductData_Product_MoreBuyingChoices.codec {})
      (·.MoreBuyingChoices) (fun x v => { x with MoreBuyingChoices := v }),
    field "Specifications" "specifications" false (sliceCodec ProductData_Product_Specifications.codec {})
      (·.Specifications) (fun x v => { x with Specifications := v }),
    field "SpecificationsFlat" "specifications_flat" false stringCodec
      (·.SpecificationsFlat) (fun x v => { x with SpecificationsFlat := v }),
    field "BestsellersRank" "bestsellers_rank" false (sliceCodec ProductData_Product_BestsellersRank.codec {})
      (·.BestsellersRank) (fun x v => { x with BestsellersRank := v }),
    field "PublicationDate" "publication_date" false stringCodec
      (·.PublicationDate) (fun x v => { x with PublicationDate := v }),
    field "Publisher" "publisher" false stringCodec
      (·.Publisher) (fun x v => { x with Publisher := v }),
    field "Isbn10" "isbn_10" false stringCodec (·.Isbn10) (fun x v => { x with Isbn10 := v }),
    field "Isbn13" "isbn_13" false stringCodec (·.Isbn13) (fun x v => { x with Isbn13 := v }),
    field "Language" "language" false stringCodec (·.Language) (fun x v => { x with Language := v }),
    field "Weight" "weight" false stringCodec (·.Weight) (fun x v => { x with Weight := v }),
    field "BestsellersRankFlat" "bestsellers_rank_flat" false stringCodec
      (·.BestsellersRankFlat) (fun x v => { x with BestsellersRankFlat := v })]

/-- How encoding/json reads and writes ProductData.Product. -/
def ProductData_Product.codec : Codec ProductData_Product := structCodec ProductData_Product.fields

/-- Fields of ProductData.FrequentlyBoughtTogether.TotalPrice as encoding/json sees them, in declaration order. -/
def ProductData_FrequentlyBoughtTogether_TotalPrice.fields : List (FieldCodec ProductData_FrequentlyBoughtTogether_TotalPrice) := [
    field "Symbol" "symbol" false stringCodec (·.Symbol) (fun x v => { x with Symbol := v }),
    field "Value" "value" false float64Codec (·.Value) (fun x v => { x with Value := v }),
    field "Currency" "currency" false stringCodec (·.Currency) (fun x v => { x with Currency := v }),
    field "Raw" "raw" false stringCodec (·.Raw) (fun x v => { x with Raw := v })]

/-- How encoding/json reads and writes ProductData.FrequentlyBoughtTogether.TotalPrice. -/
def ProductData_FrequentlyBoughtTogether_TotalPrice.codec : Codec ProductData_FrequentlyBoughtTogether_TotalPrice := structCodec ProductData_FrequentlyBoughtTogether_TotalPrice.fields

/-- Fields of ProductData.FrequentlyBoughtTogether.Products.Price as encoding/json sees them, in declaration order. -/
def ProductData_FrequentlyBoughtTogether_Products_Price.fields : List (FieldCodec ProductData_FrequentlyBoughtTogether_Products_Price) := [
    field "Symbol" "symbol" false stringCodec (·.Symbol) (fun x v => { x with Symbol := v }),
    field "Value" "value" false float64Codec (·.Value) (fun x v => { x with Value := v }),
    field "Currency" "currency" false stringCodec (·.Currency) (fun x v => { x with Currency := v }),
    field "Raw" "raw" false stringCodec (·.Raw) (fun x v => { x with Raw := v })]

/-- How encoding/json reads and writes ProductData.FrequentlyBoughtTogether.Products.Price. -/
def ProductData_FrequentlyBoughtTogether_Products_Price.codec : Codec ProductData_FrequentlyBoughtTogether_Products_Price := structCodec ProductData_FrequentlyBoughtTogether_Products_Price.fields

/-- Fields of ProductData.FrequentlyBoughtTogether.Products as encoding/json sees them, in declaration order. -/
def ProductData_FrequentlyBoughtTogether_Products.fields : List (FieldCodec ProductData_FrequentlyBoughtTogether_Products) := [
    field "Asin" "asin" false stringCodec (·.Asin) (fun x v => { x with Asin := v }),
    field "Title" "title" false stringCodec (·.Title) (fun x v => { x with Title := v }),
    field "Link" "link" false stringCodec (·.Link) (fun x v => { x with Link := v }),
    field "Price" "price" false ProductData_FrequentlyBoughtTogether_Products_Price.codec
      (·.Price) (fun x v => { x with Price := v }),
    field "Image" "image" true stringCodec (·.Image) (fun x v => { x with Image := v })]

/-- How encoding/json reads and writes ProductData.FrequentlyBoughtTogether.Products. -/
def ProductData_FrequentlyBoughtTogether_Products.codec : Codec ProductData_FrequentlyBoughtTogether_Products := structCodec ProductData_FrequentlyBoughtTogether_Products.fields

/-- Fields of ProductData.FrequentlyBoughtTogether as encoding/json sees them, in declaration order. -/
def ProductData_FrequentlyBoughtTogether.fields : List (FieldCodec ProductData_FrequentlyBoughtTogether) := [
    field "TotalPrice" "total_price" false ProductData_FrequentlyBoughtTogether_TotalPrice.codec
      (·.TotalPrice) (fun x v => { x with TotalPrice := v }),
    field "Products" "products" false (sliceCodec ProductData_FrequentlyBoughtTogether_Products.codec {})
      (·.Products) (fun x v => { x with Products := v })]

/-- How encoding/json reads and writes ProductData.FrequentlyBoughtTogether. -/
def ProductData_FrequentlyBoughtTogether.codec : Codec ProductData_FrequentlyBoughtTogether := structCodec ProductData_FrequentlyBoughtTogether.fields

/-- Fields of ProductData.AlsoBought.Price as encoding/json sees them, in declaration order. -/
def ProductData_AlsoBought_Price.fields : List (FieldCodec ProductData_AlsoBought_Price) := [
    field "Symbol" "symbol" false stringCodec (·.Symbol) (fun x v => { x with Symbol := v }),
    field "Value" "value" false float64Codec (·.Value) (fun x v => { x with Value := v }),
    field "Currency" "currency" false stringCodec (·.Currency) (fun x v => { x with Currency := v }),
    field "Raw" "raw" false stringCodec (·.Raw) (fun x v => { x with Raw := v })]

/-- How encoding/json reads and writes ProductData.AlsoBought.Price. -/
def ProductData_AlsoBought_Price.codec : Codec ProductData_AlsoBought_Price := structCodec ProductData_AlsoBought_Price.fields

/-- Fields of ProductData.AlsoBought as encoding/json sees them, in declaration order. -/
def ProductData_AlsoBought.fields : List (FieldCodec ProductData_AlsoBought) := [
    field "Title" "title" false stringCodec (·.Title) (fun x v => { x with Title := v }),
    field "Asin" "asin" false stringCodec (·.Asin) (fun x v => { x with Asin := v }),
    field "Link" "link" false stringCodec (·.Link) (fun x v => { x with Link := v }),
    field "Image" "image" false stringCodec (·.Image) (fun x v => { x with Image := v }),
    field "Rating" "rating" false float32Codec (·.Rating) (fun x v => { x with Rating := v }),
    field "RatingsTotal" "ratings_total" false float32Codec
      (·.RatingsTotal) (fun x v => { x with RatingsTotal := v }),
    field "Price" "price" false ProductData_AlsoBought_Price.codec
      (·.Price) (fun x v => { x with Price := v })]

/-- How encoding/json reads and writes ProductData.AlsoBought. -/
def ProductData_AlsoBought.codec : Codec ProductData_AlsoBought := structCodec ProductData_AlsoBought.fields

/-- Fields of ProductData as encoding/json sees them, in declaration order. -/
def ProductData.fields : List (FieldCodec ProductData) := [
    field "RequestInfo" "request_info" false ProductData_RequestInfo.codec
      (·.RequestInfo) (fun x v => { x with RequestInfo := v }),
    field "RequestParameters" "request_parameters" false ProductData_RequestParameters.codec
      (·.RequestParameters) (fun x v => { x with RequestParameters := v }),
    field "RequestMetadata" "request_metadata" false ProductData_RequestMetadata.codec
      (·.RequestMetadata) (fun x v => { x with RequestMetadata := v }),
    field "Product" "product" false ProductData_Product.codec
      (·.Product) (fun x v => { x with Product := v }),
    field "FrequentlyBoughtTogether" "frequently_bought_together" false ProductData_FrequentlyBoughtTogether.codec
      (·.FrequentlyBoughtTogether) (fun x v => { x with FrequentlyBoughtTogether := v }),
    field "AlsoBought" "also_bought" false (sliceCodec ProductData_AlsoBought.codec {})
      (·.AlsoBought) (fun x v => { x with AlsoBought := v })]

/-- How encoding/json reads and writes ProductData. -/
def ProductData.codec : Codec ProductData := structCodec ProductData.fields
/-! ## Variant lookup (amazon.go 304-313, structs.go 282-291) -/

/-- The inner loop of LookupVariant: the first variant, in order, whose Title is `title`. -/
def LookupVariant.inner (title : String) : List ProductVariant → Option ProductVariant
  | [] => none
  | v :: vs => if v.Title == title then some v else LookupVariant.inner title vs

/-- The outer loop of LookupVariant over the remaining titles. -/
def LookupVariant.outer (variants : List ProductVariant) : List String → ProductVariant × Bool
  | [] => ({}, false)
  | title :: titles =>
    match LookupVariant.inner title variants with
    | some v => (v, true)
    | none => LookupVariant.outer variants titles

/-- The method `func (pd ProductData) LookupVariant(titles ...string) (ProductVariant, bool)`. -/
def ProductData.LookupVariant (pd : ProductData) (titles : List String) : ProductVariant × Bool :=
  LookupVariant.outer pd.Product.Variants titles

/-! ## Strings and paths -/

/-- Delete the first occurrence of `old`, if there is one. -/
def removeFirst (old : List Char) : List Char → List Char
  | [] => []
  | c :: cs =>
    if old.isPrefixOf (c :: cs) then (c :: cs).drop old.length else c :: removeFirst old cs

/-- The call `strings.Replace(s, old, "", 1)`. -/
def Replace1 (s old : String) : String := String.mk (removeFirst old.data s.data)

/-- The path up to, not including, its last slash: the directory a file of that path lives in.
A path without a slash lives in the working directory, written as the empty path. -/
def dirOf (path : String) : String :=
  String.mk (((path.data.reverse.dropWhile (fun c => c != '/')).drop 1).reverse)

/-- The path after its last slash. -/
def baseOf (path : String) : String :=
  String.mk ((path.data.reverse.takeWhile (fun c => c != '/')).reverse)

/-- Collapse runs of slashes into one. -/
def squeezeSlashes : List Char → List Char
  | [] => []
  | [c] => [c]
  | c :: d :: cs => if c = '/' ∧ d = '/' then squeezeSlashes (d :: cs) else c :: squeezeSlashes (d :: cs)

/-- What filepath.Clean does to a relative path made of plain names: runs of slashes become one
slash and a trailing slash goes. Dot and dot-dot elements are not treated. -/
def Clean (path : String) : String :=
  let cs := squeezeSlashes path.data
  String.mk (if cs.getLast? = some '/' ∧ cs.length > 1 then cs.dropLast else cs)

/-- The elements of a path: the texts between its slashes, empty ones included. -/
def splitSlash : List Char → List (List Char)
  | [] => [[]]
  | c :: cs =>
    if c = '/' then [] :: splitSlash cs
    else
      match splitSlash cs with
      | [] => [[c]]
      | e :: es => (c :: e) :: es

/-- The canonical path of the entry `name` of the directory with canonical path `dir`. The
working directory has the empty canonical path. -/
def joinKey (dir name : String) : String := if dir = "" then name else dir ++ "/" ++ name

/-- The decimal digit for `n % 10`. -/
def digitChar (n : Nat) : Char := Char.ofNat (48 + n % 10)

/-- The months of package time. -/
inductive Month where
  | January | February | March | April | May | June
  | July | August | September | October | November | December
deriving DecidableEq

/-- The number of a month, January being 1. -/
def Month.number : Month → Nat
  | .January => 1 | .February => 2 | .March => 3 | .April => 4 | .May => 5 | .June => 6
  | .July => 7 | .August => 8 | .September => 9 | .October => 10 | .November => 11
  | .December => 12

/-- The call `t.Format("2006-01")` for a time in the given year and month: the year in four
digits, a hyphen, the month in two digits. -/
def formatYearMonth (year : Fin 10000) (month : Month) : String :=
  String.mk [digitChar (year.val / 1000), digitChar (year.val / 100), digitChar (year.val / 10),
    digitChar year.val, '-', digitChar (month.number / 10), digitChar month.number]

/-- Insert a name into a list sorted by byte order. -/
def insertSorted (a : String) : List String → List String
  | [] => [a]
  | b :: bs => if a.data < b.data then a :: b :: bs else b :: insertSorted a bs

/-- The call `sort.Strings`. -/
def sortStrings (xs : List String) : List String := xs.foldr insertSorted []

/-! ## The file store -/

/-- The files and directories below the working directory, each under its canonical path: the
names from the working directory down, joined by single slashes (amazon/2026-11/X.json). A file
holds a JSON document, or nothing when it was created and never written. Of several entries for
a path the first counts. -/
structure FS where
  dirs : List String := []
  files : List (String × Option Json) := []

/-- The longest name of a directory entry, in bytes (Linux). -/
def NAME_MAX : Nat := 255

/-- The size a path must stay below, in bytes (Linux). -/
def PATH_MAX : Nat := 4096

/-- Whether the directory with canonical path `key` exists. The working directory, whose
canonical path is empty, always does. -/
def FS.hasDir (fs : FS) (key : String) : Bool := key == "" || fs.dirs.contains key

/-- Whether a file with canonical path `key` exists. -/
def FS.isFile (fs : FS) (key : String) : Bool := fs.files.any (fun e => e.1 == key)

/-- Path resolution steps from the directory `dir` over an element that is not the last of
the path: an empty element and a dot stay, dot-dot goes to the parent (the root is its own
parent), and a name goes to the directory of that name, which must exist. -/
def FS.enter (fs : FS) (dir : String) (elem : List Char) : Option String :=
  if elem = [] ∨ elem = ['.'] then some dir
  else if elem = ['.', '.'] then some (dirOf dir)
  else if (String.mk elem).utf8ByteSize ≤ NAME_MAX ∧
      fs.dirs.contains (joinKey dir (String.mk elem)) = true then
    some (joinKey dir (String.mk elem))
  else none

/-- The last element of a path, from the directory `dir`: an empty element, a dot and dot-dot
lead to a directory as before, a name leads to the entry of that name, which need not exist. -/
def FS.last (dir : String) (elem : List Char) : Option String :=
  if elem = [] ∨ elem = ['.'] then some dir
  else if elem = ['.', '.'] then some (dirOf dir)
  else if (String.mk elem).utf8ByteSize ≤ NAME_MAX then some (joinKey dir (String.mk elem))
  else none

/-- Path resolution over the elements of a path, from the directory `dir`. -/
def FS.walk (fs : FS) : String → List (List Char) → Option String
  | dir, [] => some dir
  | dir, [e] => FS.last dir e
  | dir, e :: e1 :: es =>
    match fs.enter dir e with
    | none => none
    | some d => FS.walk fs d (e1 :: es)

/-- A path the system takes at all: not empty, free of the NUL byte, and short enough. -/
def validPath (path : String) : Bool :=
  path != "" && !path.data.contains (Char.ofNat 0) && decide (path.utf8ByteSize < PATH_MAX)

/-- The canonical path of what `path` leads to; none when the path is not valid or when a
directory on the way does not exist. The entry itself need not exist. -/
def FS.resolve (fs : FS) (path : String) : Option String :=
  if validPath path then fs.walk "" (splitSlash path.data) else none

/-- The canonical path `path` leads to, for a path that resolves. -/
def FS.keyOf (fs : FS) (path : String) : String := (fs.resolve path).getD ""

/-- The document held by the file with canonical path `key`; none when there is no such file,
when the path is that of a directory, or when the file is empty. -/
def FS.readKey (fs : FS) (key : String) : Option Json :=
  match fs.files.find? (fun e => e.1 == key) with
  | some (_, some j) => if fs.hasDir key then none else some j
  | _ => none

/-- The document a reader of `os.Open(path)` finds; none when the path does not lead to a
file that holds one. -/
def FS.read (fs : FS) (path : String) : Option Json :=
  match fs.resolve path with
  | some key => fs.readKey key
  | none => none

/-- Replace the content of the file with canonical path `key`. -/
def FS.put (fs : FS) (key : String) (content : Option Json) : FS :=
  { fs with files := (key, content) :: fs.files.filter (fun e => e.1 != key) }

/-- Whether os.Create(path) succeeds: the path resolves, so every directory on the way
exists, and it does not lead to a directory. No directory is ever created. -/
def FS.canCreate (fs : FS) (path : String) : Bool :=
  match fs.resolve path with
  | some key => !fs.hasDir key
  | none => false

/-- The call `os.Create(path)`: the file, created or truncated, or no handle. The handle is
the canonical path of the file. -/
def FS.create (fs : FS) (path : String) : Option String × FS :=
  if fs.canCreate path then (some (fs.keyOf path), fs.put (fs.keyOf path) none) else (none, fs)

/-- The names in the directory with canonical path `dir`, as Readdirnames reports them. -/
def FS.names (fs : FS) (dir : String) : List String :=
  ((fs.files.map (·.1) ++ fs.dirs).filter (fun p => dirOf p == dir && baseOf p != "")).map baseOf

/-- The call `filepath.Glob(pattern)` for a pattern whose directory part has no metacharacter
and whose last element is a star followed by literal text. The directory part is what precedes
the last slash, less one trailing slash (cleanGlobPath); each matching name, in sorted order, is
joined to it with filepath.Join. -/
def Glob (fs : FS) (pattern : String) : List String :=
  let dir := dirOf pattern
  let file := (baseOf pattern).data
  if fs.dirs.contains (Clean dir) then
    ((sortStrings (fs.names (Clean dir))).filter
      (fun n => (file.drop 1).isSuffixOf n.data)).map (fun n => Clean (dir ++ "/" ++ n))
  else []

/-! ## Process state -/

/-- What a run does that can be observed from outside the function being run. -/
inductive Event where
  | RLock
  | RUnlock
  | Lock
  | Unlock
  | IndexRead (id : String)
  | IndexRange
  | IndexWrite (id : String) (location : String)
  | HttpGet (url : String)
  | Open (name : String)
  | Create (name : String)
  | Println (line : String)
deriving DecidableEq

/-- The package variable cacheList: a Go map from id to file name or to the marker "missing". -/
abbrev Index := AList (fun _ : String => String)

/-- The package state (cacheList), the file store, and the events of the run so far. The lock
cacheMtx appears through its events. -/
structure World where
  cacheList : Index := ∅
  fs : FS := {}
  trace : List Event := []

/-- What a call is given from outside: the year and the month of time.Now(), the package
variable RFAPIKey, and the provider behind http.Get, which for a URL gives a transport error
or a response body (a JSON document, or none when the body is not JSON). -/
structure Env where
  year : Fin 10000
  monthOfYear : Month
  RFAPIKey : String := "REPLACE_ME"
  http : String → Except String (Option Json)

/-- The text `time.Now().Format("2006-01")`. -/
def Env.month (env : Env) : String := formatYearMonth env.year env.monthOfYear

/-- A call either returns or ends the process through log.Fatal; either way the state reached
is kept. -/
inductive Outcome (α : Type) where
  | ret (value : α) (w : World)
  | fatal (msg : String) (w : World)

def World.emit (w : World) (e : Event) : World := { w with trace := w.trace ++ [e] }

/-- The statement `cacheList[id] = location`. -/
def World.setIndex (w : World) (id location : String) : World :=
  { w with cacheList := w.cacheList.insert id location, trace := w.trace ++ [.IndexWrite id location] }

/-- Number of calls of Get made so far. -/
def World.fetches (w : World) : Nat :=
  w.trace.countP (fun e => match e with | .HttpGet _ => true | _ => false)

/-- Number of files opened for loading so far. -/
def World.loads (w : World) : Nat :=
  w.trace.countP (fun e => match e with | .Open _ => true | _ => false)

/-! ## Index build (amazon.go 314-330) -/

/-- The first loop of init: each match is registered under the id left after deleting the first
occurrence of the folder text and the first occurrence of ".json". -/
def init.scan (folder : String) : List String → World → World
  | [], w => w
  | m :: ms, w =>
    let id := Replace1 m folder
    let id := Replace1 id ".json"
    init.scan folder ms (w.setIndex id m)

/-- What Decode leaves in `missing`, which starts as the empty slice, when its error is
discarded: the strings of a JSON array, with "" for an element that is not a string; nothing
when the file is absent or empty or holds anything but an array. -/
def init.decodeMissing : Option Json → List String
  | some (.arr js) =>
    js.map (fun j => match stringCodec.dec j "" with | .ok s => s | .error _ => "")
  | _ => []

/-- The second loop of init. -/
def init.mark : List String → World → World
  | [], w => w
  | id :: ids, w => init.mark ids (w.setIndex id "missing")

/-- The function `init`, run at process start over the store as found. -/
def init (env : Env) (fs : FS) : World :=
  let w : World := { cacheList := ∅, fs := fs, trace := [] }
  let folder := "amazon/" ++ env.month ++ "/"
  let matches_ := Glob w.fs (folder ++ "/*.json")
  let w := init.scan folder matches_ w
  let w := w.emit (.Open "amazon/missing.json")
  let missing := init.decodeMissing (w.fs.read "amazon/missing.json")
  init.mark missing w

/-! ## Missing manifest (amazon.go 331-341) -/

/-- The loop of SaveMissing over the entries of cacheList. Go leaves the order of a map range
unspecified; here it is the order of the association list. -/
def SaveMissing.loop : List (Sigma (fun _ : String => String)) → List String → List String
  | [], missing => missing
  | ⟨k, v⟩ :: rest, missing =>
    if v == "missing" then SaveMissing.loop rest (missing ++ [k])
    else SaveMissing.loop rest missing

/-- The slice SaveMissing hands to the encoder. -/
def SaveMissing.missing (w : World) : List String := SaveMissing.loop w.cacheList.entries []

/-- The path SaveMissing writes. -/
def SaveMissing.path (env : Env) : String := "amazon/" ++ env.month ++ "/missing.json"

/-- The function `SaveMissing(id string)`. Both the error of os.Create and that of Encode are
discarded: when the file cannot be created nothing is written. `missing` starts as the non-nil
empty slice, so it is always written as an array. -/
def SaveMissing (env : Env) (_id : String) (w : World) : World :=
  let w := w.emit (.Create (SaveMissing.path env))
  let (f, fs) := w.fs.create (SaveMissing.path env)
  let w := { w with fs := fs }
  let w := w.emit .IndexRange
  let missing := SaveMissing.missing w
  match f with
  | none => w
  | some name => { w with fs := w.fs.put name (some (.arr (missing.map .str))) }

/-! ## Save (amazon.go 343-358) -/

/-- The file name CacheData builds for an id. -/
def CacheData.filename (env : Env) (id : String) : String :=
  "amazon/" ++ env.month ++ "/" ++ id ++ ".json"

/-- The function `CacheData(id string, pd ProductData)`. The text of a fatal message after
its prefix stands for whatever error os.Create or Encode reports. -/
def CacheData (env : Env) (id : String) (pd : ProductData) (w : World) : Outcome Unit :=
  let filename := CacheData.filename env id
  let w := w.emit .Lock
  let w := w.setIndex id filename
  let w := w.emit (.Create filename)
  let (f, fs) := w.fs.create filename
  let w := { w with fs := fs }
  match f with
  | none => .fatal "Create: open: no such file or directory" w
  | some name =>
    match ProductData.codec.enc pd with
    | .error err => .fatal ("Encode: " ++ err) w
    | .ok doc =>
      let w := { w with fs := w.fs.put name (some doc) }
      let w := w.emit .Unlock
      .ret () w

/-! ## Fetch (amazon.go 436-445) -/

/-- The function `Get(url string) (ProductData, error)`: one request to the provider, then the
body decoded into a fresh record. The result is the record, or the error; the record Go
returns next to a non-nil error is left out, as both callers stop on the error. -/
def Get (env : Env) (url : String) (w : World) : Except String ProductData × World :=
  let w := w.emit (.HttpGet url)
  match env.http url with
  | .error err => (.error err, w)
  | .ok none => (.error "invalid character looking for beginning of value", w)
  | .ok (some body) => (ProductData.codec.dec body {}, w)

/-! ## Retrieval (amazon.go 360-434) -/

/-- The URL RetrieveASIN formats with Sprintf from the key and the id. -/
def RetrieveASIN.url (env : Env) (id : String) : String :=
  "https://api.rainforestapi.com/request?api_key=" ++ env.RFAPIKey ++
    "&amazon_domain=amazon.com&asin=" ++ id ++ "&type=product"

/-- The URL RetrieveGTIN formats with Sprintf from the key and the id. -/
def RetrieveGTIN.url (env : Env) (id : String) : String :=
  "https://api.rainforestapi.com/request?api_key=" ++ env.RFAPIKey ++
    "&amazon_domain=amazon.com&type=product&gtin=" ++ id

/-- The function `RetrieveASIN(id string) ProductData`. -/
def RetrieveASIN (env : Env) (id : String) (w : World) : Outcome ProductData :=
  let w := w.emit .RLock
  let w := w.emit (.IndexRead id)
  match w.cacheList.lookup id with
  | some cached =>
    let w := w.emit .RUnlock
    let w := w.emit (.Println ("Cached:  " ++ id))
    if cached == "missing" then .ret {} w
    else
      let w := w.emit (.Open cached)
      match w.fs.read cached with
      | none => .fatal "Decode: EOF" (w.emit (.Println ("ID:  " ++ id)))
      | some doc =>
        match ProductData.codec.dec doc {} with
        | .error err => .fatal ("Decode: " ++ err) (w.emit (.Println ("ID:  " ++ id)))
        | .ok pd => .ret pd w
  | none =>
    let w := w.emit .RUnlock
    let u := RetrieveASIN.url env id
    let w := w.emit (.Println ("Retrieving:  " ++ id))
    match Get env u w with
    | (.error err, w) => .fatal ("Get: " ++ err) (w.emit (.Println ("ID:  " ++ id)))
    | (.ok pd, w) =>
      if pd.Product.Asin == "" then
        .ret {} (w.emit (.Println ("Not Found:  " ++ id)))
      else
        match CacheData env id pd w with
        | .fatal msg w => .fatal msg w
        | .ret _ w => .ret pd w

/-- The function `RetrieveGTIN(id string) ProductData`. -/
def RetrieveGTIN (env : Env) (id : String) (w : World) : Outcome ProductData :=
  let w := w.emit .RLock
  let w := w.emit (.IndexRead id)
  match w.cacheList.lookup id with
  | some cached =>
    let w := w.emit .RUnlock
    let w := w.emit (.Println ("Cached:  " ++ id))
    if cached == "missing" then .ret {} w
    else
      let w := w.emit (.Open cached)
      match w.fs.read cached with
      | none => .fatal "Decode: EOF" (w.emit (.Println ("ID:  " ++ id)))
      | some doc =>
        match ProductData.codec.dec doc {} with
        | .error err => .fatal ("Decode: " ++ err) (w.emit (.Println ("ID:  " ++ id)))
        | .ok pd => .ret pd w
  | none =>
    let w := w.emit .RUnlock
    let u := RetrieveGTIN.url env id
    let w := w.emit (.Println ("Retrieving:  " ++ id))
    match Get env u w with
    | (.error err, w) => .fatal ("Get: " ++ err) (w.emit (.Println ("ID:  " ++ id)))
    | (.ok pd, w) =>
      if pd.Product.Asin == "" then
        let w := w.emit (.Println ("Not Found:  " ++ id))
        let w := w.setIndex id "missing"
        .ret {} w
      else
        match CacheData env id pd w with
        | .fatal msg w => .fatal msg w
        | .ret _ w => .ret pd w

/-! ## Runs of several calls, and the discipline of the lock -/

/-- The state a call ends in, whether it returned or ended the process. -/
def Outcome.world {α : Type} : Outcome α → World
  | .ret _ w => w
  | .fatal _ w => w

/-- The events a call added to the trace of the state it started from. -/
def eventsOf {α : Type} (w : World) (o : Outcome α) : List Event :=
  o.world.trace.drop w.trace.length

/-- One retrieval call: which of the two functions, on which id, and what the outside gives
that call (the month, the key, the answers of the provider). -/
structure Call where
  gtin : Bool
  id : String
  env : Env

/-- Run one call. -/
def Call.run (c : Call) (w : World) : Outcome ProductData :=
  if c.gtin then RetrieveGTIN c.env c.id w else RetrieveASIN c.env c.id w

/-- Run calls one after another in one process; a fatal call ends the run. -/
def runCalls : List Call → World → Outcome Unit
  | [], w => .ret () w
  | c :: cs, w =>
    match c.run w with
    | .ret _ w1 => runCalls cs w1
    | .fatal msg w1 => .fatal msg w1

/-- Whether every index write among the events happens while the write lock of cacheMtx is
held: Lock takes it, Unlock releases it, and `held` says whether it is held at the start. -/
def writesUnderLock : Bool → List Event → Bool
  | _, [] => true
  | _, .Lock :: es => writesUnderLock true es
  | _, .Unlock :: es => writesUnderLock false es
  | held, .IndexWrite _ _ :: es => held && writesUnderLock held es
  | held, _ :: es => writesUnderLock held es

/-! ## Concrete records, providers and stores used as test inputs -/

/-- A variant titled Hardcover. -/
def vHardcover : ProductVariant := { Asin := "H1", Title := "Hardcover" }

/-- A variant titled Paperback. -/
def vPaperback : ProductVariant := { Asin := "P1", Title := "Paperback" }

/-- A record whose variants are titled Hardcover and Paperback, in that order. -/
def pdHP : ProductData := { Product := { Variants := [vHardcover, vPaperback] } }

/-- The record of the end-to-end scenario: asin B000TEST, title Example Book. -/
def pdB : ProductData := { Product := { Asin := "B000TEST", Title := "Example Book" } }

/-- The provider response body of the end-to-end scenario. -/
def bodyB : Json :=
  .obj [("product", .obj [("asin", .str "B000TEST"), ("title", .str "Example Book")])]

/-- November 2026, a provider that answers every request with `bodyB`. -/
def envB : Env :=
  { year := 2026, monthOfYear := .November, http := fun _ => .ok (some bodyB) }

/-- November 2026, a provider that knows no product: it answers with an empty product. -/
def envNone : Env :=
  { year := 2026, monthOfYear := .November
    http := fun _ => .ok (some (.obj [("product", .obj [])])) }

/-- The document the encoder writes for a record (null when it refuses the record). -/
def docOf (pd : ProductData) : Json :=
  match ProductData.codec.enc pd with
  | .ok doc => doc
  | .error _ => .null

/-- A fresh process in a store that has the root and the November 2026 partition. -/
def wDir : World := { fs := { dirs := ["amazon", "amazon/2026-11"] } }

/-- A process whose index marks X as missing, in a store with the November 2026 partition. -/
def wMissing : World :=
  { cacheList := AList.insert "X" "missing" ∅, fs := { dirs := ["amazon", "amazon/2026-11"] } }

/-- A process whose index marks X as missing, in a store that has the root only. -/
def wMissingNewMonth : World :=
  { cacheList := AList.insert "X" "missing" ∅, fs := { dirs := ["amazon"] } }

/-- A process whose index knows B000TEST at its file, which holds the encoding of `pdB`. -/
def wCached : World :=
  { cacheList := AList.insert "B000TEST" "amazon/2026-11/B000TEST.json" ∅
    fs := { dirs := ["amazon", "amazon/2026-11"]
            files := [("amazon/2026-11/B000TEST.json", some (docOf pdB))] } }

/-- A top review whose reviewer profile has a name. -/
def reviewAlice : ProductData_Product_TopReviews := { ID := "R1", Profile := { Name := "Alice" } }

/-- A record carrying that review. -/
def pdReviewed : ProductData := { Product := { Asin := "B000TEST", TopReviews := [reviewAlice] } }

/-- The same record with the reviewer profile at its zero value. -/
def pdReviewedBare : ProductData :=
  { Product := { Asin := "B000TEST", TopReviews := [{ ID := "R1" }] } }

/-- A run of four calls: RetrieveGTIN on X, RetrieveASIN on B000TEST with a provider that has
it, RetrieveGTIN on NOPE with a provider that has nothing, RetrieveASIN on X. -/
def callsMixed : List Call :=
  [⟨true, "X", envB⟩, ⟨false, "B000TEST", envB⟩, ⟨true, "NOPE", envNone⟩, ⟨false, "X", envNone⟩]

/-! ## Lemmas about the state and the store -/

@[simp] theorem World.emit_cacheList (w : World) (e : Event) :
    (w.emit e).cacheList = w.cacheList := rfl

@[simp] theorem World.emit_fs (w : World) (e : Event) : (w.emit e).fs = w.fs := rfl

@[simp] theorem World.emit_trace (w : World) (e : Event) :
    (w.emit e).trace = w.trace ++ [e] := rfl

@[simp] theorem World.setIndex_cacheList (w : World) (a b : String) :
    (w.setIndex a b).cacheList = w.cacheList.insert a b := rfl

@[simp] theorem World.setIndex_trace (w : World) (a b : String) :
    (w.setIndex a b).trace = w.trace ++ [.IndexWrite a b] := rfl

/-- Dropping a run of elements that all pass the test. -/
theorem dropWhile_append_of_all {α : Type} (p : α → Bool) (xs ys : List α)
    (h : ∀ x ∈ xs, p x = true) : (xs ++ ys).dropWhile p = ys.dropWhile p := by
  induction xs with
  | nil => rfl
  | cons x xs ih =>
    have hx : p x = true := h x (List.mem_cons_self _ _)
    simp only [List.cons_append, List.dropWhile_cons, hx, if_true]
    exact ih (fun y hy => h y (List.mem_cons_of_mem _ hy))

/-- A name without a slash, joined to a directory by a slash, lives in that directory. -/
theorem dirOf_append_slash (a name : String) (h : '/' ∉ name.data) :
    dirOf (a ++ "/" ++ name) = a := by
  have h1 : (a ++ "/" ++ name).data.reverse = name.data.reverse ++ ('/' :: a.data.reverse) := by
    simp [String.data_append]
  have h2 : ∀ c ∈ name.data.reverse, (c != '/') = true := by
    intro c hc
    have hc1 : c ∈ name.data := List.mem_reverse.1 hc
    simp only [bne_iff_ne, ne_eq]
    rintro rfl
    exact h hc1
  unfold dirOf
  rw [h1, dropWhile_append_of_all _ _ _ h2]
  simp

/-- For an id without a slash the file CacheData names lives in the month's partition. -/
theorem filename_dir (env : Env) (id : String) (h : '/' ∉ id.data) :
    dirOf (CacheData.filename env id) = "amazon/" ++ env.month := by
  have e : CacheData.filename env id = ("amazon/" ++ env.month) ++ "/" ++ (id ++ ".json") := by
    simp [CacheData.filename, String.append_assoc]
  rw [e]
  apply dirOf_append_slash
  simp only [String.data_append, List.mem_append, not_or]
  exact ⟨h, by decide⟩

/-- A digit is no slash. -/
theorem digitChar_ne_slash (n : Nat) : digitChar n ≠ '/' := by
  unfold digitChar
  have h : n % 10 < 10 := Nat.mod_lt _ (by decide)
  generalize n % 10 = k at h
  interval_cases k <;> decide

/-- The month text is seven characters long. -/
theorem month_length (env : Env) : env.month.data.length = 7 := rfl

/-- The month text has no slash. -/
theorem month_no_slash (env : Env) : '/' ∉ env.month.data := by
  simp only [Env.month, formatYearMonth, List.mem_cons, List.mem_nil_iff, or_false, not_or]
  exact ⟨fun h => digitChar_ne_slash _ h.symm, fun h => digitChar_ne_slash _ h.symm,
    fun h => digitChar_ne_slash _ h.symm, fun h => digitChar_ne_slash _ h.symm, by decide,
    fun h => digitChar_ne_slash _ h.symm, fun h => digitChar_ne_slash _ h.symm⟩

/-- A path splits at a slash that follows a stretch without slashes. -/
theorem splitSlash_append (xs ys : List Char) (h : '/' ∉ xs) :
    splitSlash (xs ++ '/' :: ys) = xs :: splitSlash ys := by
  induction xs with
  | nil => simp [splitSlash]
  | cons x xs ih =>
    have hx : x ≠ '/' := fun e => h (e ▸ List.mem_cons_self _ _)
    have hxs : '/' ∉ xs := fun e => h (List.mem_cons_of_mem _ e)
    simp only [List.cons_append, splitSlash, hx, if_false, List.append_eq, ih hxs]

/-- A text without a slash is one element. -/
theorem splitSlash_plain (xs : List Char) (h : '/' ∉ xs) : splitSlash xs = [xs] := by
  induction xs with
  | nil => rfl
  | cons x xs ih =>
    have hx : x ≠ '/' := fun e => h (e ▸ List.mem_cons_self _ _)
    have hxs : '/' ∉ xs := fun e => h (List.mem_cons_of_mem _ e)
    simp only [splitSlash, hx, if_false, ih hxs]

/-- Where a path leads depends on the directories only. -/
theorem FS.walk_dirs (fs fs1 : FS) (h : fs1.dirs = fs.dirs) (dir : String)
    (es : List (List Char)) : fs1.walk dir es = fs.walk dir es := by
  induction es generalizing dir with
  | nil => rfl
  | cons e es ih =>
    cases es with
    | nil => rfl
    | cons e1 es =>
      have he : fs1.enter dir e = fs.enter dir e := by
        unfold FS.enter
        rw [h]
      unfold FS.walk
      rw [he]
      cases fs.enter dir e with
      | none => rfl
      | some d => exact ih d

/-- Writing a file does not change where paths lead. -/
theorem FS.resolve_put (fs : FS) (key : String) (c : Option Json) (path : String) :
    (fs.put key c).resolve path = fs.resolve path := by
  unfold FS.resolve
  rw [FS.walk_dirs fs (fs.put key c) rfl]

/-- A path os.Create accepts resolves, and not to a directory. -/
theorem canCreate_key (fs : FS) (path : String) (h : fs.canCreate path = true) :
    fs.resolve path = some (fs.keyOf path) ∧ fs.hasDir (fs.keyOf path) = false := by
  unfold FS.canCreate at h
  unfold FS.keyOf
  cases hr : fs.resolve path with
  | none => rw [hr] at h; cases h
  | some key =>
    rw [hr] at h
    simp only [Bool.not_eq_true'] at h
    exact ⟨rfl, h⟩

/-- A file just written is read back under its canonical path. -/
theorem FS.readKey_put (fs : FS) (key : String) (doc : Json) (h : fs.hasDir key = false) :
    (fs.put key (some doc)).readKey key = some doc := by
  have h1 : (fs.put key (some doc)).hasDir key = false := h
  simp only [FS.readKey, h1]
  simp [FS.put]

/-- A file os.Create accepted and that was then written is read back through the same path. -/
theorem FS.read_put (fs : FS) (path : String) (c : Option Json) (doc : Json)
    (h : fs.canCreate path = true) :
    ((fs.put (fs.keyOf path) c).put (fs.keyOf path) (some doc)).read path = some doc := by
  obtain ⟨hr, hd⟩ := canCreate_key fs path h
  have hr1 : ((fs.put (fs.keyOf path) c).put (fs.keyOf path) (some doc)).resolve path
      = some (fs.keyOf path) := by
    rw [FS.resolve_put, FS.resolve_put, hr]
  unfold FS.read
  rw [hr1]
  exact FS.readKey_put _ _ _ hd

/-- Searching for one path is not affected by removing the entries of another. -/
theorem find_filter_ne (files : List (String × Option Json)) (p q : String) (h : p ≠ q) :
    (files.filter (fun e => e.1 != p)).find? (fun e => e.1 == q)
      = files.find? (fun e => e.1 == q) := by
  induction files with
  | nil => rfl
  | cons e es ih =>
    by_cases hq : e.1 = q
    · have hp : (e.1 != p) = true := by
        simp only [bne_iff_ne, ne_eq]
        exact fun hp => h (hp.symm.trans hq)
      have hq1 : (e.1 == q) = true := by simpa using hq
      simp only [List.filter_cons, hp, if_true, List.find?_cons, hq1]
    · have hq1 : (e.1 == q) = false := by simpa using hq
      by_cases hp : e.1 = p
      · have hp1 : (e.1 != p) = false := by simpa using hp
        simp only [List.filter_cons, hp1, Bool.false_eq_true, if_false, List.find?_cons, hq1]
        exact ih
      · have hp1 : (e.1 != p) = true := by simpa using hp
        simp only [List.filter_cons, hp1, if_true, List.find?_cons, hq1, ih]

/-- Writing one file does not change what is read under another canonical path. -/
theorem FS.readKey_put_ne (fs : FS) (p q : String) (c : Option Json) (h : p ≠ q) :
    (fs.put p c).readKey q = fs.readKey q := by
  have hd : (fs.put p c).hasDir q = fs.hasDir q := rfl
  have hf : (fs.put p c).files.find? (fun e => e.1 == q) = fs.files.find? (fun e => e.1 == q) := by
    simp only [FS.put, List.find?_cons]
    have hpq : ((p, c).1 == q) = false := by simpa using h
    rw [hpq]
    exact find_filter_ne fs.files p q h
  simp only [FS.readKey, hd, hf]

/-- Writing a file does not change what a path reads as, when the path leads elsewhere. -/
theorem FS.read_put_ne (fs : FS) (p : String) (c : Option Json) (path : String)
    (h : ∀ key, fs.resolve path = some key → p ≠ key) :
    (fs.put p c).read path = fs.read path := by
  unfold FS.read
  rw [FS.resolve_put]
  cases hr : fs.resolve path with
  | none => rfl
  | some key => exact FS.readKey_put_ne fs p key c (h key hr)

/-- The first step of every path of the package: into the directory amazon. -/
theorem enter_amazon (fs : FS) :
    fs.enter "" "amazon".data = if fs.dirs.contains "amazon" = true then some "amazon" else none := by
  have hsz : (String.mk "amazon".data).utf8ByteSize ≤ NAME_MAX := by decide
  have hj : joinKey "" (String.mk "amazon".data) = "amazon" := by decide
  unfold FS.enter
  rw [if_neg (by decide), if_neg (by decide)]
  simp only [hsz, hj, true_and]

/-- The step from amazon into the month's partition. -/
theorem enter_month (fs : FS) (env : Env) :
    fs.enter "amazon" env.month.data =
      if env.month.utf8ByteSize ≤ NAME_MAX ∧ fs.dirs.contains ("amazon/" ++ env.month) = true
      then some ("amazon/" ++ env.month) else none := by
  have h1 : ¬ (env.month.data = [] ∨ env.month.data = ['.']) := by
    have hlen := month_length env
    rintro (e1 | e1) <;> rw [e1] at hlen <;> cases hlen
  have h3 : env.month.data ≠ ['.', '.'] := by
    intro e1; have := month_length env; rw [e1] at this; cases this
  have hj : joinKey "amazon" (String.mk env.month.data) = "amazon/" ++ env.month := by
    simp only [joinKey]
    rw [if_neg (by decide)]
    rfl
  unfold FS.enter
  rw [if_neg h1, if_neg h3, hj]

/-- The manifest path init reads leads, when it leads anywhere, to the entry of that path. -/
theorem resolve_manifest (fs : FS) (key : String)
    (h : fs.resolve "amazon/missing.json" = some key) : key = "amazon/missing.json" := by
  unfold FS.resolve at h
  rw [if_pos (by decide)] at h
  have hs : splitSlash "amazon/missing.json".data = ["amazon".data, "missing.json".data] := by
    decide
  rw [hs] at h
  unfold FS.walk at h
  rw [enter_amazon] at h
  by_cases ha : fs.dirs.contains "amazon" = true
  · rw [if_pos ha] at h
    unfold FS.walk at h
    have hl : FS.last "amazon" "missing.json".data = some "amazon/missing.json" := by decide
    rw [hl] at h
    exact (Option.some.inj h).symm
  · rw [if_neg ha] at h
    cases h

/-- The manifest path SaveMissing writes leads, when it leads anywhere, to the entry of that
path. -/
theorem resolve_month_manifest (fs : FS) (env : Env) (key : String)
    (h : fs.resolve (SaveMissing.path env) = some key) : key = SaveMissing.path env := by
  have hs : splitSlash (SaveMissing.path env).data
      = ["amazon".data, env.month.data, "missing.json".data] := by
    have e : (SaveMissing.path env).data
        = "amazon".data ++ '/' :: (env.month.data ++ '/' :: "missing.json".data) := by
      simp [SaveMissing.path, String.data_append]
    rw [e, splitSlash_append _ _ (by decide), splitSlash_append _ _ (month_no_slash env)]
    rfl
  have hne : "amazon/" ++ env.month ≠ "" := by
    intro e
    have := congrArg String.length e
    simp only [String.length_append] at this
    have h7 : "amazon/".length = 7 := by decide
    have h0 : "".length = 0 := by decide
    omega
  have hl : FS.last ("amazon/" ++ env.month) "missing.json".data
      = some (SaveMissing.path env) := by
    have hsz : (String.mk "missing.json".data).utf8ByteSize ≤ NAME_MAX := by decide
    unfold FS.last
    rw [if_neg (by decide), if_neg (by decide), if_pos hsz]
    simp only [joinKey, hne, if_false, SaveMissing.path, String.append_assoc]
    rfl
  unfold FS.resolve at h
  by_cases hv : validPath (SaveMissing.path env) = true
  · rw [if_pos hv, hs] at h
    unfold FS.walk at h
    rw [enter_amazon] at h
    by_cases ha : fs.dirs.contains "amazon" = true
    · rw [if_pos ha] at h
      unfold FS.walk at h
      rw [enter_month] at h
      by_cases hm : env.month.utf8ByteSize ≤ NAME_MAX ∧
          fs.dirs.contains ("amazon/" ++ env.month) = true
      · rw [if_pos hm] at h
        unfold FS.walk at h
        rw [hl] at h
        exact (Option.some.inj h).symm
      · rw [if_neg hm] at h
        cases h
    · rw [if_neg ha] at h
      cases h
  · rw [if_neg hv] at h
    cases h

/-! ## Lemmas about the variant lookup -/

/-- The inner loop is a search for the first variant with the title. -/
theorem inner_eq_find (t : String) (vs : List ProductVariant) :
    LookupVariant.inner t vs = vs.find? (fun v => v.Title == t) := by
  induction vs with
  | nil => rfl
  | cons v vs ih =>
    by_cases hv : v.Title = t
    · simp [LookupVariant.inner, List.find?_cons, hv]
    · simp [LookupVariant.inner, List.find?_cons, hv, ih]

/-- The inner loop finds nothing exactly when no variant has the title. -/
theorem inner_none (t : String) (vs : List ProductVariant) :
    LookupVariant.inner t vs = none ↔ ∀ v ∈ vs, v.Title ≠ t := by
  rw [inner_eq_find]; simp

/-- The inner loop finds `v` exactly when `v` has the title and no variant before it has. -/
theorem inner_some (t : String) (vs : List ProductVariant) (v : ProductVariant) :
    LookupVariant.inner t vs = some v ↔
      ∃ before after, vs = before ++ v :: after ∧ v.Title = t ∧ ∀ u ∈ before, u.Title ≠ t := by
  rw [inner_eq_find, List.find?_eq_some]
  constructor
  · rintro ⟨h, as, bs, rfl, hb⟩
    exact ⟨as, bs, rfl, by simpa using h, fun u hu => by simpa using hb u hu⟩
  · rintro ⟨as, bs, rfl, h, hb⟩
    exact ⟨by simpa using h, as, bs, rfl, fun u hu => by simpa using hb u hu⟩

/-- The outer loop reports not-found exactly when no title matches any variant. -/
theorem outer_not_found (vs : List ProductVariant) (titles : List String) :
    (LookupVariant.outer vs titles).2 = false ↔ ∀ t ∈ titles, ∀ v ∈ vs, v.Title ≠ t := by
  induction titles with
  | nil => simp [LookupVariant.outer]
  | cons t ts ih =>
    cases hin : LookupVariant.inner t vs with
    | some v =>
      obtain ⟨before, after, hvs, hv, _⟩ := (inner_some t vs v).1 hin
      simp only [LookupVariant.outer, hin, Bool.true_eq_false, false_iff, not_forall]
      exact ⟨t, List.mem_cons_self _ _, v, by simp [hvs], fun h => h hv⟩
    | none =>
      have hn := (inner_none t vs).1 hin
      simp only [LookupVariant.outer, hin, ih, List.forall_mem_cons]
      exact ⟨fun h => ⟨hn, h⟩, fun h => h.2⟩

/-- When the outer loop reports not-found it returns the zero variant. -/
theorem outer_zero (vs : List ProductVariant) (titles : List String)
    (h : (LookupVariant.outer vs titles).2 = false) :
    LookupVariant.outer vs titles = ({}, false) := by
  induction titles with
  | nil => rfl
  | cons t ts ih =>
    cases hin : LookupVariant.inner t vs with
    | some v => simp [LookupVariant.outer, hin] at h
    | none =>
      simp only [LookupVariant.outer, hin] at h ⊢
      exact ih h

/-! ## C1, C2: LookupVariant -/

/-- C1. If some candidate title equals the title of some variant, LookupVariant returns found =
true together with a variant `v` such that: the candidates split as `skipped ++ t :: later` where
no skipped candidate is the title of any variant (so `t` is the earliest candidate that matches),
and the variants split as `before ++ v :: after` where `v` has title `t` and no variant before it
has (so `v` is the first variant with that title). Candidate order comes first. -/
theorem LookupVariant_first_candidate_wins (pd : ProductData) (titles : List String)
    (h : ∃ t ∈ titles, ∃ v ∈ pd.Product.Variants, v.Title = t) :
    ∃ skipped t later before v after,
      titles = skipped ++ t :: later ∧
      (∀ s ∈ skipped, ∀ u ∈ pd.Product.Variants, u.Title ≠ s) ∧
      pd.Product.Variants = before ++ v :: after ∧
      v.Title = t ∧
      (∀ u ∈ before, u.Title ≠ t) ∧
      pd.LookupVariant titles = (v, true) := by
  unfold ProductData.LookupVariant
  generalize pd.Product.Variants = vs at h ⊢
  induction titles with
  | nil => simp at h
  | cons t ts ih =>
    cases hin : LookupVariant.inner t vs with
    | some v =>
      obtain ⟨before, after, hvs, hv, hb⟩ := (inner_some t vs v).1 hin
      exact ⟨[], t, ts, before, v, after, rfl, by simp, hvs, hv, hb,
        by simp [LookupVariant.outer, hin]⟩
    | none =>
      have hn := (inner_none t vs).1 hin
      have hrest : ∃ t ∈ ts, ∃ v ∈ vs, v.Title = t := by
        obtain ⟨c, hc, v, hv, hvc⟩ := h
        rcases List.mem_cons.1 hc with rfl | hc
        · exact absurd hvc (hn v hv)
        · exact ⟨c, hc, v, hv, hvc⟩
      obtain ⟨sk, c, later, before, v, after, hts, hsk, hvs, hv, hb, hres⟩ := ih hrest
      refine ⟨t :: sk, c, later, before, v, after, by simp [hts], ?_, hvs, hv, hb, ?_⟩
      · intro s hs u hu
        rcases List.mem_cons.1 hs with rfl | hs
        · exact hn u hu
        · exact hsk s hs u hu
      · simp [LookupVariant.outer, hin, hres]

/-- C1 at the spec's example: with variants Hardcover, Paperback and candidates Kindle,
Paperback the hypothesis holds, the theorem applies, and the result is the Paperback variant. -/
theorem LookupVariant_first_candidate_wins_witness :
    (∃ skipped t later before v after,
      ["Kindle", "Paperback"] = skipped ++ t :: later ∧
      (∀ s ∈ skipped, ∀ u ∈ pdHP.Product.Variants, u.Title ≠ s) ∧
      pdHP.Product.Variants = before ++ v :: after ∧
      v.Title = t ∧
      (∀ u ∈ before, u.Title ≠ t) ∧
      pdHP.LookupVariant ["Kindle", "Paperback"] = (v, true)) ∧
    pdHP.LookupVariant ["Kindle", "Paperback"] = (vPaperback, true) :=
  ⟨LookupVariant_first_candidate_wins pdHP ["Kindle", "Paperback"]
    ⟨"Paperback", by decide, vPaperback, by decide, by decide⟩, by decide⟩

/-- C2. LookupVariant returns found = false if and only if no candidate title equals the title
of any variant; whenever found is false the returned variant is the zero variant; and found is
false for an empty candidate list and for a record without variants. -/
theorem LookupVariant_not_found_iff (pd : ProductData) (titles : List String) :
    ((pd.LookupVariant titles).2 = false ↔
      ∀ t ∈ titles, ∀ v ∈ pd.Product.Variants, v.Title ≠ t) ∧
    ((pd.LookupVariant titles).2 = false → pd.LookupVariant titles = ({}, false)) ∧
    pd.LookupVariant [] = ({}, false) ∧
    (pd.Product.Variants = [] → pd.LookupVariant titles = ({}, false)) := by
  refine ⟨outer_not_found _ _, outer_zero _ _, rfl, fun hv => ?_⟩
  apply outer_zero
  rw [outer_not_found, hv]
  simp

/-- C2 at the spec's example: with variants Hardcover, Paperback the single candidate Kindle
matches nothing, so the theorem gives found = false and the zero variant. -/
theorem LookupVariant_not_found_iff_witness :
    pdHP.LookupVariant ["Kindle"] = ({}, false) :=
  (LookupVariant_not_found_iff pdHP ["Kindle"]).2.1
    ((LookupVariant_not_found_iff pdHP ["Kindle"]).1.2 (by decide))

/-! ## The runs of Get, CacheData and the retrieval functions, branch by branch -/

/-- Get records one request and changes nothing else. -/
theorem Get_snd (env : Env) (url : String) (w : World) :
    (Get env url w).2 = w.emit (.HttpGet url) := by
  unfold Get
  cases env.http url with
  | error e => rfl
  | ok b => cases b <;> rfl

/-- Get when the provider's answer decodes to `pd`. -/
theorem Get_eq (env : Env) (url : String) (w : World) (pd : ProductData)
    (h : ∀ w0, (Get env url w0).1 = .ok pd) :
    Get env url w = (.ok pd, w.emit (.HttpGet url)) :=
  Prod.ext (h w) (Get_snd env url w)

/-- RetrieveASIN on an id marked missing. -/
theorem RetrieveASIN_missing (env : Env) (id : String) (w : World)
    (h : w.cacheList.lookup id = some "missing") :
    RetrieveASIN env id w = .ret {}
      { w with trace := w.trace ++
          [.RLock, .IndexRead id, .RUnlock, .Println ("Cached:  " ++ id)] } := by
  simp [RetrieveASIN, World.emit, h]

/-- RetrieveGTIN on an id marked missing. -/
theorem RetrieveGTIN_missing (env : Env) (id : String) (w : World)
    (h : w.cacheList.lookup id = some "missing") :
    RetrieveGTIN env id w = .ret {}
      { w with trace := w.trace ++
          [.RLock, .IndexRead id, .RUnlock, .Println ("Cached:  " ++ id)] } := by
  simp [RetrieveGTIN, World.emit, h]

/-- RetrieveASIN on an id whose file holds a document that decodes. -/
theorem RetrieveASIN_cached (env : Env) (id location : String) (w : World) (doc : Json)
    (pd : ProductData) (h : w.cacheList.lookup id = some location) (hloc : location ≠ "missing")
    (hfile : w.fs.read location = some doc) (hdec : ProductData.codec.dec doc {} = .ok pd) :
    RetrieveASIN env id w = .ret pd
      { w with trace := w.trace ++
          [.RLock, .IndexRead id, .RUnlock, .Println ("Cached:  " ++ id), .Open location] } := by
  simp [RetrieveASIN, World.emit, h, hloc, hfile, hdec]

/-- RetrieveGTIN on an id whose file holds a document that decodes. -/
theorem RetrieveGTIN_cached (env : Env) (id location : String) (w : World) (doc : Json)
    (pd : ProductData) (h : w.cacheList.lookup id = some location) (hloc : location ≠ "missing")
    (hfile : w.fs.read location = some doc) (hdec : ProductData.codec.dec doc {} = .ok pd) :
    RetrieveGTIN env id w = .ret pd
      { w with trace := w.trace ++
          [.RLock, .IndexRead id, .RUnlock, .Println ("Cached:  " ++ id), .Open location] } := by
  simp [RetrieveGTIN, World.emit, h, hloc, hfile, hdec]

/-- RetrieveASIN on an unknown id the provider does not have. -/
theorem RetrieveASIN_notFound (env : Env) (id : String) (w : World) (pd : ProductData)
    (h : w.cacheList.lookup id = none)
    (hget : ∀ w0, (Get env (RetrieveASIN.url env id) w0).1 = .ok pd)
    (hasin : pd.Product.Asin = "") :
    RetrieveASIN env id w = .ret {}
      { w with trace := w.trace ++ [.RLock, .IndexRead id, .RUnlock,
          .Println ("Retrieving:  " ++ id), .HttpGet (RetrieveASIN.url env id),
          .Println ("Not Found:  " ++ id)] } := by
  simp only [RetrieveASIN, World.emit_cacheList, h, Get_eq env _ _ pd hget]
  simp [hasin, World.emit]

/-- RetrieveGTIN on an unknown id the provider does not have. -/
theorem RetrieveGTIN_notFound (env : Env) (id : String) (w : World) (pd : ProductData)
    (h : w.cacheList.lookup id = none)
    (hget : ∀ w0, (Get env (RetrieveGTIN.url env id) w0).1 = .ok pd)
    (hasin : pd.Product.Asin = "") :
    RetrieveGTIN env id w = .ret {}
      { cacheList := w.cacheList.insert id "missing"
        fs := w.fs
        trace := w.trace ++ [.RLock, .IndexRead id, .RUnlock,
          .Println ("Retrieving:  " ++ id), .HttpGet (RetrieveGTIN.url env id),
          .Println ("Not Found:  " ++ id), .IndexWrite id "missing"] } := by
  simp only [RetrieveGTIN, World.emit_cacheList, h, Get_eq env _ _ pd hget]
  simp [hasin, World.emit, World.setIndex]

/-! ## C3, C4: answers from the index -/

/-- C3. For an id whose index entry is the marker "missing", RetrieveASIN and RetrieveGTIN both
return the zero record, make no call of Get, and leave the index and the store as they were. -/
theorem Retrieve_missing_short_circuits (env : Env) (id : String) (w : World)
    (h : w.cacheList.lookup id = some "missing") :
    (∃ w1, RetrieveASIN env id w = .ret {} w1 ∧
      w1.cacheList = w.cacheList ∧ w1.fs = w.fs ∧ w1.fetches = w.fetches) ∧
    (∃ w1, RetrieveGTIN env id w = .ret {} w1 ∧
      w1.cacheList = w.cacheList ∧ w1.fs = w.fs ∧ w1.fetches = w.fetches) :=
  ⟨⟨_, RetrieveASIN_missing env id w h, rfl, rfl, by simp [World.fetches, List.countP_append]⟩,
   ⟨_, RetrieveGTIN_missing env id w h, rfl, rfl, by simp [World.fetches, List.countP_append]⟩⟩

/-- C3 at a process whose index marks X as missing, whatever the provider would answer. -/
theorem Retrieve_missing_short_circuits_witness :
    wMissing.cacheList.lookup "X" = some "missing" ∧
    (∃ w1, RetrieveASIN envB "X" wMissing = .ret {} w1 ∧
      w1.cacheList = wMissing.cacheList ∧ w1.fs = wMissing.fs ∧ w1.fetches = wMissing.fetches) ∧
    (∃ w1, RetrieveGTIN envB "X" wMissing = .ret {} w1 ∧
      w1.cacheList = wMissing.cacheList ∧ w1.fs = wMissing.fs ∧ w1.fetches = wMissing.fetches) :=
  ⟨rfl, Retrieve_missing_short_circuits envB "X" wMissing rfl⟩

/-- C4. For an id whose index entry is a location (not the marker) where the store holds a
document that decodes to `pd`, RetrieveASIN and RetrieveGTIN each return `pd` with exactly one
load and no call of Get, leaving the index and the store as they were; and called again on the
state reached they return `pd` again, again with one load and no call of Get. -/
theorem Retrieve_cached_is_idempotent (env : Env) (id location : String) (w : World)
    (doc : Json) (pd : ProductData)
    (h : w.cacheList.lookup id = some location) (hloc : location ≠ "missing")
    (hfile : w.fs.read location = some doc) (hdec : ProductData.codec.dec doc {} = .ok pd) :
    (∃ w1, RetrieveASIN env id w = .ret pd w1 ∧
      w1.cacheList = w.cacheList ∧ w1.fs = w.fs ∧
      w1.loads = w.loads + 1 ∧ w1.fetches = w.fetches ∧
      ∃ w2, RetrieveASIN env id w1 = .ret pd w2 ∧
        w2.cacheList = w.cacheList ∧ w2.fs = w.fs ∧
        w2.loads = w1.loads + 1 ∧ w2.fetches = w1.fetches) ∧
    (∃ w1, RetrieveGTIN env id w = .ret pd w1 ∧
      w1.cacheList = w.cacheList ∧ w1.fs = w.fs ∧
      w1.loads = w.loads + 1 ∧ w1.fetches = w.fetches ∧
      ∃ w2, RetrieveGTIN env id w1 = .ret pd w2 ∧
        w2.cacheList = w.cacheList ∧ w2.fs = w.fs ∧
        w2.loads = w1.loads + 1 ∧ w2.fetches = w1.fetches) := by
  constructor
  · refine ⟨_, RetrieveASIN_cached env id location w doc pd h hloc hfile hdec, rfl, rfl, ?_, ?_,
      _, RetrieveASIN_cached env id location _ doc pd h hloc hfile hdec, rfl, rfl, ?_, ?_⟩ <;>
      simp [World.loads, World.fetches, List.countP_append, List.countP_cons]
  · refine ⟨_, RetrieveGTIN_cached env id location w doc pd h hloc hfile hdec, rfl, rfl, ?_, ?_,
      _, RetrieveGTIN_cached env id location _ doc pd h hloc hfile hdec, rfl, rfl, ?_, ?_⟩ <;>
      simp [World.loads, World.fetches, List.countP_append, List.countP_cons]

/-- C4 at a process that has B000TEST cached in the November 2026 partition: the first call
returns the stored record with one load and no fetch, and so does the second. -/
theorem Retrieve_cached_is_idempotent_witness :
    ∃ w1, RetrieveASIN envB "B000TEST" wCached = .ret pdB w1 ∧
      w1.cacheList = wCached.cacheList ∧ w1.fs = wCached.fs ∧
      w1.loads = wCached.loads + 1 ∧ w1.fetches = wCached.fetches ∧
      ∃ w2, RetrieveASIN envB "B000TEST" w1 = .ret pdB w2 ∧
        w2.cacheList = wCached.cacheList ∧ w2.fs = wCached.fs ∧
        w2.loads = w1.loads + 1 ∧ w2.fetches = w1.fetches :=
  (Retrieve_cached_is_idempotent envB "B000TEST" "amazon/2026-11/B000TEST.json" wCached
    (docOf pdB) pdB rfl (by decide) rfl rfl).1

/-! ## C5, C6: answers from the provider -/

/-- C6. For an id with no index entry, if Get returns without error a record whose
product.asin is the empty string, then RetrieveASIN returns the zero record, leaves the store
and the whole index unchanged (the id stays absent), while RetrieveGTIN (for its own URL)
returns the zero record, leaves the store unchanged, sets the index entry of the id to the
marker "missing" and changes no other entry. -/
theorem Retrieve_not_found_asymmetry (env : Env) (id : String) (w : World) (pd : ProductData)
    (h : w.cacheList.lookup id = none) (hasin : pd.Product.Asin = "") :
    ((∀ w0, (Get env (RetrieveASIN.url env id) w0).1 = .ok pd) →
      ∃ w1, RetrieveASIN env id w = .ret {} w1 ∧ w1.fs = w.fs ∧
        w1.cacheList = w.cacheList ∧ w1.cacheList.lookup id = none) ∧
    ((∀ w0, (Get env (RetrieveGTIN.url env id) w0).1 = .ok pd) →
      ∃ w1, RetrieveGTIN env id w = .ret {} w1 ∧ w1.fs = w.fs ∧
        w1.cacheList.lookup id = some "missing" ∧
        ∀ other, other ≠ id → w1.cacheList.lookup other = w.cacheList.lookup other) :=
  ⟨fun hget => ⟨_, RetrieveASIN_notFound env id w pd h hget hasin, rfl, rfl, h⟩,
   fun hget => ⟨_, RetrieveGTIN_notFound env id w pd h hget hasin, rfl, by simp,
     fun other ho => by simp [AList.lookup_insert_ne ho]⟩⟩

/-- C6 at a fresh process and a provider that answers every request with an empty product. -/
theorem Retrieve_not_found_asymmetry_witness :
    (∃ w1, RetrieveASIN envNone "NOPE" wDir = .ret {} w1 ∧ w1.fs = wDir.fs ∧
      w1.cacheList = wDir.cacheList ∧ w1.cacheList.lookup "NOPE" = none) ∧
    (∃ w1, RetrieveGTIN envNone "NOPE" wDir = .ret {} w1 ∧ w1.fs = wDir.fs ∧
      w1.cacheList.lookup "NOPE" = some "missing" ∧
      ∀ other, other ≠ "NOPE" → w1.cacheList.lookup other = wDir.cacheList.lookup other) :=
  ⟨(Retrieve_not_found_asymmetry envNone "NOPE" wDir {} rfl rfl).1 (fun _ => rfl),
   (Retrieve_not_found_asymmetry envNone "NOPE" wDir {} rfl rfl).2 (fun _ => rfl)⟩

/-! ## C7: save then load -/

/-- C7 at a failing input. A record with one top review whose reviewer profile is named Alice
is saved under B000TEST in a store that has the month's partition. Save completes; the index
then leads to a file whose document decodes, and RetrieveASIN returns that decoding; but the
record that comes back has the reviewer profile at its zero value, so it differs from the
record saved. The six fields Profile, Profile0 .. Profile4 all carry the JSON name "profile",
and encoding/json selects none of them, neither when writing nor when reading. -/
theorem Save_Load_loses_reviewer_profile :
    ((dominant ProductData_Product_TopReviews.fields).map (·.jsonName)).contains "profile"
      = false ∧
    ∃ w1 location doc w2,
      CacheData envB "B000TEST" pdReviewed wDir = .ret () w1 ∧
      w1.cacheList.lookup "B000TEST" = some location ∧
      w1.fs.read location = some doc ∧
      ProductData.codec.dec doc {} = .ok pdReviewedBare ∧
      RetrieveASIN envB "B000TEST" w1 = .ret pdReviewedBare w2 ∧
      pdReviewed.Product.TopReviews.map (·.Profile.Name) = ["Alice"] ∧
      pdReviewedBare.Product.TopReviews.map (·.Profile.Name) = [""] ∧
      pdReviewedBare ≠ pdReviewed :=
  ⟨by decide, _, _, _, _, rfl, rfl, rfl, rfl, rfl, rfl, rfl, by decide⟩

/-! ## Lemmas about SaveMissing -/

/-- The loop appends, in order, the keys of the entries whose value is the marker. -/
theorem SaveMissing.loop_eq (es : List (Sigma (fun _ : String => String))) (acc : List String) :
    SaveMissing.loop es acc =
      acc ++ (es.filter (fun e => e.2 == "missing")).map (fun e => e.1) := by
  induction es generalizing acc with
  | nil => simp [SaveMissing.loop]
  | cons e es ih =>
    obtain ⟨k, v⟩ := e
    by_cases hv : v = "missing"
    · simp [SaveMissing.loop, hv, ih, List.filter_cons]
    · simp [SaveMissing.loop, hv, ih, List.filter_cons]

/-- The slice holds exactly the ids whose index entry is the marker. -/
theorem SaveMissing.mem_missing (w : World) (k : String) :
    k ∈ SaveMissing.missing w ↔ w.cacheList.lookup k = some "missing" := by
  unfold SaveMissing.missing
  rw [SaveMissing.loop_eq]
  simp only [List.nil_append, List.mem_map, List.mem_filter, beq_iff_eq]
  constructor
  · rintro ⟨⟨k1, v⟩, ⟨hmem, hv⟩, rfl⟩
    simp only at hv
    subst hv
    exact AList.mem_lookup_iff.2 hmem
  · intro h
    exact ⟨⟨k, "missing"⟩, ⟨AList.mem_lookup_iff.1 h, rfl⟩, rfl⟩

/-- The slice holds no id twice, as a map has each key once. -/
theorem SaveMissing.nodup_missing (w : World) : (SaveMissing.missing w).Nodup := by
  unfold SaveMissing.missing
  rw [SaveMissing.loop_eq]
  simp only [List.nil_append]
  have hk : (w.cacheList.entries.map (fun e => e.1)).Nodup := w.cacheList.nodupKeys
  exact hk.sublist ((List.filter_sublist _).map _)

/-- SaveMissing when the manifest file can be created. -/
theorem SaveMissing_created (env : Env) (id : String) (w : World)
    (h : w.fs.canCreate (SaveMissing.path env) = true) :
    SaveMissing env id w =
      { cacheList := w.cacheList
        fs := (w.fs.put (w.fs.keyOf (SaveMissing.path env)) none).put
          (w.fs.keyOf (SaveMissing.path env)) (some (.arr ((SaveMissing.missing w).map .str)))
        trace := w.trace ++ [.Create (SaveMissing.path env), .IndexRange] } := by
  unfold SaveMissing FS.create
  simp only [World.emit_fs, h, if_true]
  simp [World.emit, SaveMissing.missing]

/-- SaveMissing when the manifest file cannot be created. -/
theorem SaveMissing_refused (env : Env) (id : String) (w : World)
    (h : w.fs.canCreate (SaveMissing.path env) = false) :
    SaveMissing env id w =
      { w with trace := w.trace ++ [.Create (SaveMissing.path env), .IndexRange] } := by
  unfold SaveMissing FS.create
  simp only [World.emit_fs, h, Bool.false_eq_true, if_false]
  simp [World.emit]

/-! ## C8: the manifest written and the manifest read -/

/-- The path SaveMissing writes is, for every month, another path than the one init reads. -/
theorem SaveMissing.path_ne (env : Env) : SaveMissing.path env ≠ "amazon/missing.json" := by
  intro hpath
  have hlen := congrArg String.length hpath
  simp only [SaveMissing.path, String.length_append] at hlen
  have h1 : "amazon/".length = 7 := by decide
  have h2 : "/missing.json".length = 13 := by decide
  have h3 : "amazon/missing.json".length = 19 := by decide
  omega

/-- SaveMissing never changes what the path init reads holds. -/
theorem SaveMissing_keeps_manifest_read (env : Env) (id : String) (w : World) :
    (SaveMissing env id w).fs.read "amazon/missing.json" = w.fs.read "amazon/missing.json" := by
  cases h : w.fs.canCreate (SaveMissing.path env)
  · rw [SaveMissing_refused env id w h]
  · rw [SaveMissing_created env id w h]
    have hk := (canCreate_key _ _ h).1
    have hkey : w.fs.keyOf (SaveMissing.path env) = SaveMissing.path env :=
      resolve_month_manifest _ _ _ hk
    have hne : ∀ (fs : FS) key, fs.resolve "amazon/missing.json" = some key →
        w.fs.keyOf (SaveMissing.path env) ≠ key := by
      intro fs key hr
      rw [resolve_manifest fs key hr, hkey]
      exact SaveMissing.path_ne env
    simp only
    rw [FS.read_put_ne _ _ _ _ (hne _), FS.read_put_ne _ _ _ _ (hne _)]

/-- C8 at a failing input, and why it fails everywhere. X is marked missing in the index and
the store has the month's partition. SaveMissing writes the list holding X to
amazon/2026-11/missing.json and leaves amazon/missing.json absent; init run on the resulting
store reads amazon/missing.json, finds nothing, and builds an index in which X has no entry at
all. What it does find is the file SaveMissing wrote, which the directory scan registers as the
product id missing. In general, for every month the path SaveMissing writes differs from the
path init reads, and SaveMissing never changes what the path init reads holds. -/
theorem SaveMissing_then_init_forgets_missing :
    wMissing.cacheList.lookup "X" = some "missing" ∧
    (SaveMissing envB "" wMissing).fs.read "amazon/2026-11/missing.json"
      = some (.arr [.str "X"]) ∧
    (SaveMissing envB "" wMissing).fs.read "amazon/missing.json" = none ∧
    (init envB (SaveMissing envB "" wMissing).fs).cacheList.lookup "X" = none ∧
    (init envB (SaveMissing envB "" wMissing).fs).cacheList.lookup "missing"
      = some "amazon/2026-11/missing.json" ∧
    (∀ env : Env, SaveMissing.path env ≠ "amazon/missing.json") ∧
    (∀ (env : Env) (id : String) (w : World),
      (SaveMissing env id w).fs.read "amazon/missing.json" = w.fs.read "amazon/missing.json") :=
  ⟨rfl, rfl, rfl, rfl, rfl, SaveMissing.path_ne, SaveMissing_keeps_manifest_read⟩

/-! ## C9: Save and the partition directory -/

/-- C10, as amended. SaveMissing leaves the index unchanged and does the same whatever its id
argument. There is a list holding exactly the ids whose index entry is the marker "missing",
each once, such that: when os.Create accepts the manifest path amazon/MONTH/missing.json (the
month's partition exists) the manifest afterwards holds that list; and when os.Create refuses
it the store is left as it was and no manifest is written. -/
theorem SaveMissing_writes_missing_ids_when_creatable (env : Env) (id : String) (w : World) :
    (SaveMissing env id w).cacheList = w.cacheList ∧
    (∀ other, SaveMissing env other w = SaveMissing env id w) ∧
    ∃ missing : List String,
      missing.Nodup ∧
      (∀ k, k ∈ missing ↔ w.cacheList.lookup k = some "missing") ∧
      (w.fs.canCreate (SaveMissing.path env) = true →
        (SaveMissing env id w).fs.read (SaveMissing.path env)
          = some (.arr (missing.map .str))) ∧
      (w.fs.canCreate (SaveMissing.path env) = false → (SaveMissing env id w).fs = w.fs) := by
  refine ⟨?_, fun _ => rfl, SaveMissing.missing w, SaveMissing.nodup_missing w,
    SaveMissing.mem_missing w, ?_, ?_⟩
  · cases h : w.fs.canCreate (SaveMissing.path env)
    · rw [SaveMissing_refused env id w h]
    · rw [SaveMissing_created env id w h]
  · intro h
    rw [SaveMissing_created env id w h]
    exact FS.read_put _ _ _ _ h
  · intro h
    rw [SaveMissing_refused env id w h]

/-- C10 as amended, at a process whose index marks X as missing, in a store with the month's
partition. -/
theorem SaveMissing_writes_missing_ids_when_creatable_witness :
    wMissing.fs.canCreate (SaveMissing.path envB) = true ∧
    (SaveMissing envB "B000TEST" wMissing).cacheList = wMissing.cacheList ∧
    (∀ other, SaveMissing envB other wMissing = SaveMissing envB "B000TEST" wMissing) ∧
    ∃ missing : List String,
      missing.Nodup ∧
      (∀ k, k ∈ missing ↔ wMissing.cacheList.lookup k = some "missing") ∧
      (wMissing.fs.canCreate (SaveMissing.path envB) = true →
        (SaveMissing envB "B000TEST" wMissing).fs.read (SaveMissing.path envB)
          = some (.arr (missing.map .str))) ∧
      (wMissing.fs.canCreate (SaveMissing.path envB) = false →
        (SaveMissing envB "B000TEST" wMissing).fs = wMissing.fs) :=
  ⟨by decide, SaveMissing_writes_missing_ids_when_creatable envB "B000TEST" wMissing⟩

/-- C10 as stated fails when the month's partition does not exist: X is marked missing, yet
after SaveMissing there is no manifest, neither at the path it writes nor anywhere else. -/
theorem SaveMissing_new_month_writes_nothing :
    wMissingNewMonth.cacheList.lookup "X" = some "missing" ∧
    (SaveMissing envB "" wMissingNewMonth).fs.isFile (SaveMissing.path envB) = false ∧
    (SaveMissing envB "" wMissingNewMonth).fs.read (SaveMissing.path envB) = none ∧
    (SaveMissing envB "" wMissingNewMonth).fs.files.length = 0 :=
  ⟨rfl, rfl, rfl, rfl⟩

/-! ## Lemmas about the index build -/

/-- Deleting the first occurrence of a text from a text that starts with it leaves the rest. -/
theorem removeFirst_prefix (old rest : List Char) : removeFirst old (old ++ rest) = rest := by
  cases h : old ++ rest with
  | nil =>
    have h1 := List.append_eq_nil.1 h
    rw [h1.2]
    rfl
  | cons c cs =>
    have hp : old.isPrefixOf (c :: cs) = true := by
      rw [← h]
      exact List.isPrefixOf_iff_prefix.2 (List.prefix_append _ _)
    simp only [removeFirst, hp, if_true]
    rw [← h, List.drop_left]

/-- The text .json does not start again inside itself: it is no prefix of a text made of
one to four characters followed by .json. -/
theorem json_not_prefix_short (x : List Char) (h1 : 0 < x.length) (h2 : x.length < 5) :
    (".json".data).isPrefixOf (x ++ ".json".data) = false := by
  match x, h1, h2 with
  | [a], _, _ => simp [List.isPrefixOf]
  | [a, b], _, _ => simp [List.isPrefixOf]
  | [a, b, c], _, _ => simp [List.isPrefixOf]
  | [a, b, c, d], _, _ => simp [List.isPrefixOf]
  | _ :: _ :: _ :: _ :: _ :: _, _, h => simp at h; omega

/-- The text .json is no prefix of a non-empty text free of .json followed by .json. -/
theorem json_not_prefix (x : List Char) (hx : x ≠ []) (hfree : ¬ ".json".data <:+: x) :
    (".json".data).isPrefixOf (x ++ ".json".data) = false := by
  by_cases hl : x.length < 5
  · exact json_not_prefix_short x (List.length_pos.2 hx) hl
  · cases hp : (".json".data).isPrefixOf (x ++ ".json".data) with
    | false => rfl
    | true =>
      exfalso
      apply hfree
      have h1 : ".json".data <+: x ++ ".json".data := List.isPrefixOf_iff_prefix.1 hp
      have h2 : ".json".data <+: x :=
        List.prefix_of_prefix_length_le h1 (List.prefix_append _ _) (by
          have : (".json".data).length = 5 := by decide
          omega)
      exact h2.isInfix

/-- Deleting the first .json from ID.json gives back ID when ID is free of .json. -/
theorem removeFirst_json_append (x : List Char) (hfree : ¬ ".json".data <:+: x) :
    removeFirst ".json".data (x ++ ".json".data) = x := by
  induction x with
  | nil => decide
  | cons c cs ih =>
    have hnp := json_not_prefix (c :: cs) (List.cons_ne_nil _ _) hfree
    have hcs : ¬ ".json".data <:+: cs := fun h => hfree (h.trans (List.suffix_cons c cs).isInfix)
    simp only [List.cons_append] at hnp ⊢
    simp only [removeFirst, hnp, Bool.false_eq_true, if_false, ih hcs]

/-- When the text occurs, what is deleted is one occurrence of it. -/
theorem removeFirst_occurs (old : List Char) (n : List Char) (h : old <:+: n) :
    ∃ a b, n = a ++ old ++ b ∧ removeFirst old n = a ++ b := by
  induction n with
  | nil =>
    obtain ⟨a, b, hab⟩ := h
    have h1 : a ++ old = [] := (List.append_eq_nil.1 hab).1
    have h2 := List.append_eq_nil.1 h1
    exact ⟨[], [], by simp [h2.2], by simp [removeFirst]⟩
  | cons c cs ih =>
    by_cases hp : old.isPrefixOf (c :: cs) = true
    · obtain ⟨b, hb⟩ := List.isPrefixOf_iff_prefix.1 hp
      refine ⟨[], b, by simp [hb], ?_⟩
      simp only [removeFirst, hp, if_true, List.nil_append]
      rw [← hb, List.drop_left]
    · have hcs : old <:+: cs := by
        obtain ⟨a, b, hab⟩ := h
        cases a with
        | nil =>
          exfalso
          apply hp
          exact List.isPrefixOf_iff_prefix.2 ⟨b, by simpa using hab⟩
        | cons a0 as =>
          simp only [List.cons_append, List.cons.injEq] at hab
          exact ⟨as, b, hab.2⟩
      obtain ⟨a, b, hab, hr⟩ := ih hcs
      refine ⟨c :: a, b, by simp [hab], ?_⟩
      simp only [removeFirst, hp, Bool.false_eq_true, if_false, hr, List.cons_append]

/-- The text .json is no suffix of .json followed by one to four characters. -/
theorem json_not_suffix_short (b : List Char) (h1 : 0 < b.length) (h2 : b.length < 5) :
    ¬ ".json".data <:+ ".json".data ++ b := by
  rw [← List.isSuffixOf_iff_suffix]
  match b, h1, h2 with
  | [p], _, _ => simp [List.isSuffixOf, List.isPrefixOf]
  | [p, q], _, _ => simp [List.isSuffixOf, List.isPrefixOf]
  | [p, q, r], _, _ => simp [List.isSuffixOf, List.isPrefixOf]
  | [p, q, r, s], _, _ => simp [List.isSuffixOf, List.isPrefixOf]
  | _ :: _ :: _ :: _ :: _ :: _, _, h => simp at h; omega

/-- A name that ends in .json and from which deleting the first .json leaves ID, where ID is
free of .json, is the name ID.json. -/
theorem name_of_removeFirst_json (n x : List Char) (hfree : ¬ ".json".data <:+: x)
    (hsuf : ".json".data <:+ n) (hrem : removeFirst ".json".data n = x) :
    n = x ++ ".json".data := by
  obtain ⟨a, b, hn, hr⟩ := removeFirst_occurs ".json".data n hsuf.isInfix
  rw [hrem] at hr
  have hJb : ".json".data <:+ ".json".data ++ b := by
    apply List.suffix_of_suffix_length_le hsuf
    · rw [hn, List.append_assoc]; exact List.suffix_append _ _
    · simp
  have hb : b = [] := by
    by_cases hlen : b.length < 5
    · by_cases hpos : 0 < b.length
      · exact absurd hJb (json_not_suffix_short b hpos hlen)
      · exact List.length_eq_zero.1 (by omega)
    · exfalso
      apply hfree
      have h5 : (".json".data).length = 5 := by decide
      have hJ : ".json".data <:+ b :=
        List.suffix_of_suffix_length_le hJb (List.suffix_append _ _) (by omega)
      rw [hr]
      exact hJ.isInfix.trans (List.suffix_append a b).isInfix
  rw [hn, hr, hb]
  simp

/-- A name without a slash, joined to a directory by a slash, is the base of the path. -/
theorem baseOf_append_slash (a name : String) (h : '/' ∉ name.data) :
    baseOf (a ++ "/" ++ name) = name := by
  have h1 : (a ++ "/" ++ name).data.reverse = name.data.reverse ++ ('/' :: a.data.reverse) := by
    simp [String.data_append]
  have h2 : ∀ c ∈ name.data.reverse, (c != '/') = true := by
    intro c hc
    have hc1 : c ∈ name.data := List.mem_reverse.1 hc
    simp only [bne_iff_ne, ne_eq]
    rintro rfl
    exact h hc1
  unfold baseOf
  rw [h1, List.takeWhile_append_of_pos h2]
  simp

/-- The base of a path has no slash. -/
theorem baseOf_no_slash (p : String) : '/' ∉ (baseOf p).data := by
  unfold baseOf
  simp only [List.mem_reverse]
  intro h
  have := List.mem_takeWhile_imp h
  simp at this

/-- Squeezing passes over a stretch without slashes. -/
theorem squeezeSlashes_append (xs ys : List Char) (h : '/' ∉ xs) :
    squeezeSlashes (xs ++ ys) = xs ++ squeezeSlashes ys := by
  induction xs with
  | nil => rfl
  | cons x xs ih =>
    have hx : x ≠ '/' := fun e => h (e ▸ List.mem_cons_self _ _)
    have hxs : '/' ∉ xs := fun e => h (List.mem_cons_of_mem _ e)
    cases hr : xs ++ ys with
    | nil =>
      have h1 := List.append_eq_nil.1 hr
      simp [h1.1, h1.2, squeezeSlashes]
    | cons d cs =>
      have := ih hxs
      rw [hr] at this
      simp only [List.cons_append, hr, squeezeSlashes, hx, false_and, if_false, this]

/-- A text without a slash is left as it is. -/
theorem squeezeSlashes_plain (xs : List Char) (h : '/' ∉ xs) : squeezeSlashes xs = xs := by
  have := squeezeSlashes_append xs [] h
  simpa [squeezeSlashes] using this

/-- One slash before a non-empty text without slashes is kept. -/
theorem squeezeSlashes_slash (xs ys : List Char) (hne : xs ≠ []) (h : '/' ∉ xs) :
    squeezeSlashes ('/' :: (xs ++ ys)) = '/' :: (xs ++ squeezeSlashes ys) := by
  cases xs with
  | nil => exact absurd rfl hne
  | cons x xs =>
    have hx : x ≠ '/' := fun e => h (e ▸ List.mem_cons_self _ _)
    have := squeezeSlashes_append (x :: xs) ys h
    simp only [List.cons_append] at this ⊢
    simp only [squeezeSlashes, hx, and_false, if_false, this]

/-- The folder text of a month: Clean takes its trailing slash away. -/
theorem Clean_folder (month : String) (hne : month ≠ "") (hs : '/' ∉ month.data) :
    Clean ("amazon/" ++ month ++ "/") = "amazon/" ++ month := by
  have hm : month.data ≠ [] := fun e => hne (String.ext e)
  have hd : ("amazon/" ++ month ++ "/").data = "amazon".data ++ ('/' :: (month.data ++ ['/'])) := by
    simp [String.data_append]
  have hsq : squeezeSlashes ("amazon/" ++ month ++ "/").data
      = "amazon".data ++ ('/' :: (month.data ++ ['/'])) := by
    rw [hd, squeezeSlashes_append _ _ (by decide), squeezeSlashes_slash _ _ hm hs]
    rfl
  unfold Clean
  simp only [hsq]
  apply String.ext
  have e1 : "amazon".data ++ ('/' :: (month.data ++ ['/']))
      = ("amazon".data ++ ('/' :: month.data)) ++ ['/'] := by simp
  rw [e1]
  simp only [List.getLast?_concat, List.dropLast_concat, List.length_append, List.length_cons,
    List.length_nil, true_and]
  rw [if_pos (by omega)]
  simp [String.data_append]

/-- A name joined to the folder text by one more slash: Clean leaves one slash. -/
theorem Clean_join (month name : String) (hne : month ≠ "") (hs : '/' ∉ month.data)
    (hn : name ≠ "") (hns : '/' ∉ name.data) :
    Clean ("amazon/" ++ month ++ "/" ++ "/" ++ name) = "amazon/" ++ month ++ "/" ++ name := by
  have hm : month.data ≠ [] := fun e => hne (String.ext e)
  have hnd : name.data ≠ [] := fun e => hn (String.ext e)
  have hd : ("amazon/" ++ month ++ "/" ++ "/" ++ name).data
      = "amazon".data ++ ('/' :: (month.data ++ ('/' :: '/' :: name.data))) := by
    simp [String.data_append]
  have h3 : squeezeSlashes ('/' :: '/' :: name.data) = '/' :: name.data := by
    cases hnm : name.data with
    | nil => exact absurd hnm hnd
    | cons c cs =>
      have hc : c ≠ '/' := fun e => hns (by rw [hnm, e]; exact List.mem_cons_self _ _)
      have hplain := squeezeSlashes_plain (c :: cs) (hnm ▸ hns)
      simp only [squeezeSlashes, and_self, if_true, hc, and_false, if_false, hplain]
  have hsq : squeezeSlashes ("amazon/" ++ month ++ "/" ++ "/" ++ name).data
      = "amazon".data ++ ('/' :: (month.data ++ ('/' :: name.data))) := by
    rw [hd, squeezeSlashes_append _ _ (by decide), squeezeSlashes_slash _ _ hm hs, h3]
  unfold Clean
  simp only [hsq]
  apply String.ext
  have hlast : ("amazon".data ++ ('/' :: (month.data ++ ('/' :: name.data)))).getLast? ≠ some '/' := by
    have e1 : "amazon".data ++ ('/' :: (month.data ++ ('/' :: name.data)))
        = ("amazon".data ++ ('/' :: (month.data ++ ['/']))) ++ name.data := by simp
    rw [e1, List.getLast?_append]
    rw [List.getLast?_eq_getLast _ hnd]
    intro e
    have e2 : name.data.getLast hnd = '/' := by simpa [Option.or] using e
    exact hns (e2 ▸ List.getLast_mem hnd)
  rw [if_neg (fun h => hlast h.1)]
  simp [String.data_append]

/-- Inserting into a sorted list adds the name and keeps the others. -/
theorem mem_insertSorted (a x : String) (l : List String) :
    x ∈ insertSorted a l ↔ x = a ∨ x ∈ l := by
  induction l with
  | nil => simp [insertSorted]
  | cons b bs ih =>
    unfold insertSorted
    split
    · simp
    · simp only [List.mem_cons, ih]
      constructor
      · rintro (h | h | h)
        · exact Or.inr (Or.inl h)
        · exact Or.inl h
        · exact Or.inr (Or.inr h)
      · rintro (h | h | h)
        · exact Or.inr (Or.inl h)
        · exact Or.inl h
        · exact Or.inr (Or.inr h)

/-- Sorting keeps the names. -/
theorem mem_sortStrings (x : String) (l : List String) : x ∈ sortStrings l ↔ x ∈ l := by
  induction l with
  | nil => simp [sortStrings]
  | cons a as ih =>
    have : sortStrings (a :: as) = insertSorted a (sortStrings as) := rfl
    rw [this, mem_insertSorted, ih]
    simp

/-- The pattern init hands to Glob splits into the folder text and the file pattern. -/
theorem pattern_split (month : String) :
    dirOf ("amazon/" ++ month ++ "/" ++ "/*.json") = "amazon/" ++ month ++ "/" ∧
    baseOf ("amazon/" ++ month ++ "/" ++ "/*.json") = "*.json" := by
  have e : "amazon/" ++ month ++ "/" ++ "/*.json" = ("amazon/" ++ month ++ "/") ++ "/" ++ "*.json" := by
    rw [String.append_assoc ("amazon/" ++ month ++ "/") "/" "*.json"]
    rfl
  rw [e]
  exact ⟨dirOf_append_slash _ _ (by decide), baseOf_append_slash _ _ (by decide)⟩

/-- What Glob returns for the month's pattern: every match is the folder text followed by a
name that has no slash and ends in .json. -/
theorem Glob_month_sound (fs : FS) (month : String) (hne : month ≠ "") (hs : '/' ∉ month.data)
    (m : String) (hm : m ∈ Glob fs ("amazon/" ++ month ++ "/" ++ "/*.json")) :
    ∃ n : String, ".json".data <:+ n.data ∧ m = "amazon/" ++ month ++ "/" ++ n := by
  unfold Glob at hm
  simp only [(pattern_split month).1, (pattern_split month).2, Clean_folder month hne hs] at hm
  split at hm
  · simp only [List.mem_map, List.mem_filter, mem_sortStrings] at hm
    obtain ⟨n, ⟨hn, hsuf⟩, rfl⟩ := hm
    unfold FS.names at hn
    simp only [List.mem_map, List.mem_filter] at hn
    obtain ⟨p, ⟨_, hp⟩, rfl⟩ := hn
    simp only [Bool.and_eq_true, bne_iff_ne, ne_eq] at hp
    refine ⟨baseOf p, List.isSuffixOf_iff_suffix.1 hsuf, ?_⟩
    exact Clean_join month (baseOf p) hne hs hp.2 (baseOf_no_slash p)
  · simp at hm

/-- What Glob returns for the month's pattern holds every path directly in the month's
directory whose name ends in .json. -/
theorem Glob_month_complete (fs : FS) (month : String) (hne : month ≠ "")
    (hs : '/' ∉ month.data) (hdir : fs.dirs.contains ("amazon/" ++ month) = true)
    (p : String) (hp : fs.isFile p = true) (hpd : dirOf p = "amazon/" ++ month)
    (hpb : baseOf p ≠ "") (hsuf : ".json".data <:+ (baseOf p).data) :
    "amazon/" ++ month ++ "/" ++ baseOf p ∈ Glob fs ("amazon/" ++ month ++ "/" ++ "/*.json") := by
  unfold Glob
  simp only [(pattern_split month).1, (pattern_split month).2, Clean_folder month hne hs, hdir,
    if_true]
  simp only [List.mem_map, List.mem_filter, mem_sortStrings]
  refine ⟨baseOf p, ⟨?_, List.isSuffixOf_iff_suffix.2 hsuf⟩,
    Clean_join month (baseOf p) hne hs hpb (baseOf_no_slash p)⟩
  unfold FS.names
  simp only [List.mem_map, List.mem_filter]
  refine ⟨p, ⟨?_, ?_⟩, rfl⟩
  · unfold FS.isFile at hp
    obtain ⟨e, he, hep⟩ := List.any_eq_true.1 hp
    simp only [beq_iff_eq] at hep
    exact List.mem_append_left _ (List.mem_map.2 ⟨e, he, hep⟩)
  · simp [hpd, hpb]

/-- The id init recovers from a match: the folder text deleted, then the first .json. -/
theorem recover_eq (folder n : String) :
    Replace1 (Replace1 (folder ++ n) folder) ".json"
      = String.mk (removeFirst ".json".data n.data) := by
  unfold Replace1
  simp only [String.data_append, removeFirst_prefix]

/-- The first loop of init leaves the store alone. -/
theorem init.scan_fs (folder : String) (ms : List String) (w : World) :
    (init.scan folder ms w).fs = w.fs := by
  induction ms generalizing w with
  | nil => rfl
  | cons m ms ih =>
    simp only [init.scan]
    rw [ih]
    rfl

/-- After the first loop of init an id is at `path` when every match that recovers to the id
is `path` and either some match does or the id was at `path` before. -/
theorem init.scan_lookup (folder id path : String) (ms : List String) (w : World)
    (huniq : ∀ m ∈ ms, Replace1 (Replace1 m folder) ".json" = id → m = path)
    (hex : w.cacheList.lookup id = some path ∨
      ∃ m ∈ ms, Replace1 (Replace1 m folder) ".json" = id) :
    (init.scan folder ms w).cacheList.lookup id = some path := by
  induction ms generalizing w with
  | nil =>
    rcases hex with h | ⟨m, hm, _⟩
    · exact h
    · cases hm
  | cons m ms ih =>
    simp only [init.scan]
    apply ih _ (fun m1 hm1 => huniq m1 (List.mem_cons_of_mem _ hm1))
    by_cases hr : Replace1 (Replace1 m folder) ".json" = id
    · left
      have hmp := huniq m (List.mem_cons_self _ _) hr
      subst hmp
      simp only [World.setIndex_cacheList, hr]
      exact AList.lookup_insert w.cacheList
    · rcases hex with h | ⟨m1, hm1, hr1⟩
      · left
        simp only [World.setIndex_cacheList]
        rw [AList.lookup_insert_ne (fun e => hr e.symm)]
        exact h
      · right
        rcases List.mem_cons.1 hm1 with rfl | hm1
        · exact absurd hr1 hr
        · exact ⟨m1, hm1, hr1⟩

/-- The second loop of init leaves the entry of an id that is not listed as it was. -/
theorem init.mark_lookup (id : String) (missing : List String) (w : World)
    (h : id ∉ missing) :
    (init.mark missing w).cacheList.lookup id = w.cacheList.lookup id := by
  induction missing generalizing w with
  | nil => rfl
  | cons a as ih =>
    simp only [init.mark]
    rw [ih _ (fun e => h (List.mem_cons_of_mem _ e))]
    simp only [World.setIndex_cacheList]
    exact AList.lookup_insert_ne (fun e => h (e ▸ List.mem_cons_self _ _))

/-- Build registers ID.json under ID for every id free of .json. For a month text that is
not empty and has no slash (Format gives digits and a hyphen), an id without a slash and
without the text .json, a store in which the month's directory exists and holds the file
ID.json, and a manifest that does not list the id: the index init builds maps the id to the
path of that file. -/
theorem init_registers_plain_id (env : Env) (fs : FS) (id : String)
    (hne : env.month ≠ "") (hs : '/' ∉ env.month.data)
    (hid : '/' ∉ id.data) (hfree : ¬ ".json".data <:+: id.data)
    (hdir : fs.dirs.contains ("amazon/" ++ env.month) = true)
    (hfile : fs.isFile (CacheData.filename env id) = true)
    (hmiss : id ∉ init.decodeMissing (fs.read "amazon/missing.json")) :
    (init env fs).cacheList.lookup id = some (CacheData.filename env id) := by
  have hpath : CacheData.filename env id = "amazon/" ++ env.month ++ "/" ++ (id ++ ".json") := by
    simp [CacheData.filename, String.append_assoc]
  have hbase : baseOf (CacheData.filename env id) = id ++ ".json" := by
    rw [hpath]
    apply baseOf_append_slash
    simp only [String.data_append, List.mem_append, not_or]
    exact ⟨hid, by decide⟩
  have hbne : baseOf (CacheData.filename env id) ≠ "" := by
    rw [hbase]
    intro e
    have hlen := congrArg String.length e
    simp only [String.length_append] at hlen
    have h5 : ".json".length = 5 := by decide
    have h0 : "".length = 0 := by decide
    omega
  have hsuf : ".json".data <:+ (baseOf (CacheData.filename env id)).data := by
    rw [hbase, String.data_append]
    exact List.suffix_append _ _
  have hmem := Glob_month_complete fs env.month hne hs hdir (CacheData.filename env id) hfile
    (filename_dir env id hid) hbne hsuf
  rw [hbase, ← hpath] at hmem
  unfold init
  simp only
  rw [init.mark_lookup]
  · simp only [World.emit_cacheList]
    apply init.scan_lookup
    · intro m hm hr
      obtain ⟨n, hn, rfl⟩ := Glob_month_sound fs env.month hne hs m hm
      rw [recover_eq] at hr
      have hrd : removeFirst ".json".data n.data = id.data := by rw [← hr]
      have := name_of_removeFirst_json n.data id.data hfree hn hrd
      rw [hpath]
      congr 1
      apply String.ext
      rw [this, String.data_append]
    · right
      refine ⟨CacheData.filename env id, hmem, ?_⟩
      rw [hpath, recover_eq, String.data_append, removeFirst_json_append _ hfree]
  · simp only [World.emit_fs, init.scan_fs]
    exact hmiss

/-! ## C11: what Build registers -/

/-- C11 at a failing input, and where the claim does hold. The id a.json.b is saved in a store
that has the month's partition: the file amazon/2026-11/a.json.b.json exists directly in the
partition and no manifest lists the id. init finds the file, deletes the folder text and then
the first .json, which sits inside the id, and so registers the file under a.b.json; the id
a.json.b has no entry in the index built. For every id that contains neither a slash nor the
text .json, in a month whose text is not empty and has no slash, the claim holds: when
ID.json exists directly in the month's directory and the manifest does not list the id, the
index init builds maps the id to the path of that file. -/
theorem init_loses_id_containing_json :
    (∃ w1, CacheData envB "a.json.b" pdB wDir = .ret () w1 ∧
      w1.fs.isFile "amazon/2026-11/a.json.b.json" = true ∧
      init.decodeMissing (w1.fs.read "amazon/missing.json") = [] ∧
      Glob w1.fs "amazon/2026-11//*.json" = ["amazon/2026-11/a.json.b.json"] ∧
      Replace1 (Replace1 "amazon/2026-11/a.json.b.json" "amazon/2026-11/") ".json"
        = "a.b.json" ∧
      (init envB w1.fs).cacheList.lookup "a.json.b" = none ∧
      (init envB w1.fs).cacheList.lookup "a.b.json" = some "amazon/2026-11/a.json.b.json") ∧
    (∀ (env : Env) (fs : FS) (id : String),
      env.month ≠ "" → '/' ∉ env.month.data →
      '/' ∉ id.data → ¬ ".json".data <:+: id.data →
      fs.dirs.contains ("amazon/" ++ env.month) = true →
      fs.isFile (CacheData.filename env id) = true →
      id ∉ init.decodeMissing (fs.read "amazon/missing.json") →
      (init env fs).cacheList.lookup id = some (CacheData.filename env id)) :=
  ⟨⟨_, rfl, rfl, rfl, rfl, by decide, rfl, rfl⟩, init_registers_plain_id⟩

/-! ## Lemmas about what a call does to the index -/

/-- In every branch CacheData leaves the index with the id set to the file name. -/
theorem CacheData_index (env : Env) (id : String) (pd : ProductData) (w : World) :
    (CacheData env id pd w).world.cacheList = w.cacheList.insert id (CacheData.filename env id) := by
  unfold CacheData FS.create
  cases hc : (World.setIndex (w.emit .Lock) id (CacheData.filename env id)
      |>.emit (.Create (CacheData.filename env id))).fs.canCreate (CacheData.filename env id)
  · simp only [hc]
    rfl
  · simp only [hc]
    cases ProductData.codec.enc pd <;> rfl

/-- The index a call of RetrieveASIN ends with is the one it started with, or that one with
the call's own id set, and the latter only when the id had no entry. -/
theorem RetrieveASIN_index (env : Env) (id : String) (w : World) :
    (RetrieveASIN env id w).world.cacheList = w.cacheList ∨
    (w.cacheList.lookup id = none ∧
      ∃ v, (RetrieveASIN env id w).world.cacheList = w.cacheList.insert id v) := by
  unfold RetrieveASIN
  simp only [World.emit_cacheList]
  cases hl : w.cacheList.lookup id with
  | some cached =>
    left
    simp only
    split
    · rfl
    · simp only [World.emit_fs]
      cases w.fs.read cached with
      | none => rfl
      | some doc =>
        simp only
        cases ProductData.codec.dec doc {} <;> rfl
  | none =>
    simp only
    rcases hg : Get env (RetrieveASIN.url env id)
      ((((w.emit .RLock).emit (.IndexRead id)).emit .RUnlock).emit
        (.Println ("Retrieving:  " ++ id))) with ⟨r, w2⟩
    have hw2 : w2.cacheList = w.cacheList := by
      have := Get_snd env (RetrieveASIN.url env id)
        ((((w.emit .RLock).emit (.IndexRead id)).emit .RUnlock).emit
          (.Println ("Retrieving:  " ++ id)))
      rw [hg] at this
      simp only at this
      rw [this]
      rfl
    cases r with
    | error e => left; exact hw2
    | ok pd =>
      simp only
      split
      · left; exact hw2
      · right
        refine ⟨trivial, CacheData.filename env id, ?_⟩
        have hc := CacheData_index env id pd w2
        rw [hw2] at hc
        cases hcd : CacheData env id pd w2 with
        | ret u w3 => rw [hcd] at hc; exact hc
        | fatal m w3 => rw [hcd] at hc; exact hc

/-- The same for RetrieveGTIN. -/
theorem RetrieveGTIN_index (env : Env) (id : String) (w : World) :
    (RetrieveGTIN env id w).world.cacheList = w.cacheList ∨
    (w.cacheList.lookup id = none ∧
      ∃ v, (RetrieveGTIN env id w).world.cacheList = w.cacheList.insert id v) := by
  unfold RetrieveGTIN
  simp only [World.emit_cacheList]
  cases hl : w.cacheList.lookup id with
  | some cached =>
    left
    simp only
    split
    · rfl
    · simp only [World.emit_fs]
      cases w.fs.read cached with
      | none => rfl
      | some doc =>
        simp only
        cases ProductData.codec.dec doc {} <;> rfl
  | none =>
    simp only
    rcases hg : Get env (RetrieveGTIN.url env id)
      ((((w.emit .RLock).emit (.IndexRead id)).emit .RUnlock).emit
        (.Println ("Retrieving:  " ++ id))) with ⟨r, w2⟩
    have hw2 : w2.cacheList = w.cacheList := by
      have := Get_snd env (RetrieveGTIN.url env id)
        ((((w.emit .RLock).emit (.IndexRead id)).emit .RUnlock).emit
          (.Println ("Retrieving:  " ++ id)))
      rw [hg] at this
      simp only at this
      rw [this]
      rfl
    cases r with
    | error e => left; exact hw2
    | ok pd =>
      simp only
      split
      · right
        exact ⟨trivial, "missing", by simp [Outcome.world, hw2]⟩
      · right
        refine ⟨trivial, CacheData.filename env id, ?_⟩
        have hc := CacheData_index env id pd w2
        rw [hw2] at hc
        cases hcd : CacheData env id pd w2 with
        | ret u w3 => rw [hcd] at hc; exact hc
        | fatal m w3 => rw [hcd] at hc; exact hc

/-- One call leaves an entry that is the marker as it is. -/
theorem Call.run_keeps_missing (c : Call) (w : World) (id : String)
    (h : w.cacheList.lookup id = some "missing") :
    (c.run w).world.cacheList.lookup id = some "missing" := by
  have key : (c.run w).world.cacheList = w.cacheList ∨
      (w.cacheList.lookup c.id = none ∧
        ∃ v, (c.run w).world.cacheList = w.cacheList.insert c.id v) := by
    unfold Call.run
    split
    · exact RetrieveGTIN_index c.env c.id w
    · exact RetrieveASIN_index c.env c.id w
  rcases key with e | ⟨hnone, v, e⟩
  · rw [e]; exact h
  · have hne : id ≠ c.id := by
      rintro rfl
      rw [h] at hnone
      cases hnone
    rw [e, AList.lookup_insert_ne hne]
    exact h

/-! ## C12: missing is terminal -/

/-- C12. For every id whose index entry is the marker "missing" and every finite sequence of
calls of RetrieveASIN and RetrieveGTIN, on any ids, each call with whatever month and provider
answers it meets, the index entry of that id is still the marker "missing" in the state the
run ends in. This holds for runs in which every call returns and also for runs that a fatal
call cuts short. -/
theorem missing_is_terminal (calls : List Call) (w : World) (id : String)
    (h : w.cacheList.lookup id = some "missing") :
    (runCalls calls w).world.cacheList.lookup id = some "missing" := by
  induction calls generalizing w with
  | nil => exact h
  | cons c cs ih =>
    have hstep := Call.run_keeps_missing c w id h
    unfold runCalls
    cases hc : c.run w with
    | ret v w1 =>
      rw [hc] at hstep
      exact ih w1 hstep
    | fatal m w1 =>
      rw [hc] at hstep
      exact hstep

/-- C12 at a run of four calls from a state that marks X as missing: every call returns, the
run caches B000TEST and marks NOPE, and X is still marked missing at the end. -/
theorem missing_is_terminal_witness :
    wMissing.cacheList.lookup "X" = some "missing" ∧
    (∃ w1, runCalls callsMixed wMissing = .ret () w1 ∧
      w1.cacheList.lookup "B000TEST" = some "amazon/2026-11/B000TEST.json" ∧
      w1.cacheList.lookup "NOPE" = some "missing" ∧
      w1.fetches = 2) ∧
    (runCalls callsMixed wMissing).world.cacheList.lookup "X" = some "missing" :=
  ⟨rfl, ⟨_, rfl, rfl, rfl, rfl⟩, missing_is_terminal callsMixed wMissing "X" rfl⟩

/-! ## Lemmas about the lock -/

/-- The events CacheData adds: the write of the index entry sits between Lock and, when the
call completes, Unlock. -/
theorem CacheData_trace (env : Env) (id : String) (pd : ProductData) (w : World) :
    ∃ es, (es = [] ∨ es = [.Unlock]) ∧
      (CacheData env id pd w).world.trace = w.trace ++
        (.Lock :: .IndexWrite id (CacheData.filename env id) ::
          .Create (CacheData.filename env id) :: es) := by
  unfold CacheData FS.create
  cases hc : (World.setIndex (w.emit .Lock) id (CacheData.filename env id)
      |>.emit (.Create (CacheData.filename env id))).fs.canCreate (CacheData.filename env id)
  · simp only [hc]
    exact ⟨[], Or.inl rfl, by simp [Outcome.world, World.emit, World.setIndex]⟩
  · simp only [hc]
    cases ProductData.codec.enc pd with
    | error e => exact ⟨[], Or.inl rfl, by simp [Outcome.world, World.emit, World.setIndex]⟩
    | ok d => exact ⟨[.Unlock], Or.inr rfl, by simp [Outcome.world, World.emit, World.setIndex]⟩

/-- Every index write of CacheData happens under the write lock. -/
theorem CacheData_writes_under_lock (env : Env) (id : String) (pd : ProductData) (w : World) :
    writesUnderLock false (eventsOf w (CacheData env id pd w)) = true := by
  obtain ⟨es, hes, ht⟩ := CacheData_trace env id pd w
  unfold eventsOf
  rw [ht, List.drop_left]
  rcases hes with rfl | rfl <;> rfl

/-- Every index write of RetrieveASIN happens under the write lock. -/
theorem RetrieveASIN_writes_under_lock (env : Env) (id : String) (w : World) :
    writesUnderLock false (eventsOf w (RetrieveASIN env id w)) = true := by
  unfold RetrieveASIN eventsOf
  simp only [World.emit_cacheList]
  cases hl : w.cacheList.lookup id with
  | some cached =>
    simp only
    split
    · simp [Outcome.world, World.emit, writesUnderLock]
    · simp only [World.emit_fs]
      cases w.fs.read cached with
      | none => simp [Outcome.world, World.emit, writesUnderLock]
      | some doc =>
        simp only
        cases ProductData.codec.dec doc {} <;>
          simp [Outcome.world, World.emit, writesUnderLock]
  | none =>
    simp only
    rcases hg : Get env (RetrieveASIN.url env id)
      ((((w.emit .RLock).emit (.IndexRead id)).emit .RUnlock).emit
        (.Println ("Retrieving:  " ++ id))) with ⟨r, w2⟩
    have hw2 : w2.trace = w.trace ++ [.RLock, .IndexRead id, .RUnlock,
        .Println ("Retrieving:  " ++ id), .HttpGet (RetrieveASIN.url env id)] := by
      have := Get_snd env (RetrieveASIN.url env id)
        ((((w.emit .RLock).emit (.IndexRead id)).emit .RUnlock).emit
          (.Println ("Retrieving:  " ++ id)))
      rw [hg] at this
      simp only at this
      rw [this]
      simp [World.emit]
    cases r with
    | error e => simp [Outcome.world, World.emit, hw2, writesUnderLock]
    | ok pd =>
      simp only
      split
      · simp [Outcome.world, World.emit, hw2, writesUnderLock]
      · obtain ⟨es, hes, ht⟩ := CacheData_trace env id pd w2
        cases hcd : CacheData env id pd w2 with
        | ret u w3 =>
          rw [hcd] at ht
          simp only [Outcome.world] at ht ⊢
          rw [ht, hw2, List.append_assoc, List.drop_left]
          rcases hes with rfl | rfl <;> rfl
        | fatal m w3 =>
          rw [hcd] at ht
          simp only [Outcome.world] at ht ⊢
          rw [ht, hw2, List.append_assoc, List.drop_left]
          rcases hes with rfl | rfl <;> rfl

/-- RetrieveGTIN on an unknown id the provider does not have writes the index with the
write lock not held. -/
theorem GTIN_notFound_outside_lock (env : Env) (id : String) (w : World) (pd : ProductData)
    (h : w.cacheList.lookup id = none)
    (hget : ∀ w0, (Get env (RetrieveGTIN.url env id) w0).1 = .ok pd)
    (hasin : pd.Product.Asin = "") :
    writesUnderLock false (eventsOf w (RetrieveGTIN env id w)) = false := by
  rw [RetrieveGTIN_notFound env id w pd h hget hasin]
  simp [eventsOf, Outcome.world, writesUnderLock]

/-! ## C13: index writes and the write lock -/

/-- C13 at a failing input, beside the paths that keep the discipline. RetrieveGTIN on the
unknown id NOPE, with a provider that answers with an empty product, produces the events
RLock, IndexRead, RUnlock, Println, HttpGet, Println, IndexWrite: the write of the marker
"missing" comes after the read lock was released and with no Lock before it, so it is not
under the write lock. The same holds for every id without an entry and every provider answer
with an empty product.asin. CacheData, in every branch, and RetrieveASIN, in every branch,
write the index only between Lock and Unlock. -/
theorem GTIN_marks_missing_outside_write_lock :
    eventsOf wDir (RetrieveGTIN envNone "NOPE" wDir) =
      [.RLock, .IndexRead "NOPE", .RUnlock, .Println "Retrieving:  NOPE",
        .HttpGet (RetrieveGTIN.url envNone "NOPE"), .Println "Not Found:  NOPE",
        .IndexWrite "NOPE" "missing"] ∧
    writesUnderLock false (eventsOf wDir (RetrieveGTIN envNone "NOPE" wDir)) = false ∧
    (∀ (env : Env) (id : String) (w : World) (pd : ProductData),
      w.cacheList.lookup id = none →
      (∀ w0, (Get env (RetrieveGTIN.url env id) w0).1 = .ok pd) →
      pd.Product.Asin = "" →
      writesUnderLock false (eventsOf w (RetrieveGTIN env id w)) = false) ∧
    (∀ (env : Env) (id : String) (pd : ProductData) (w : World),
      writesUnderLock false (eventsOf w (CacheData env id pd w)) = true) ∧
    (∀ (env : Env) (id : String) (w : World),
      writesUnderLock false (eventsOf w (RetrieveASIN env id w)) = true) :=
  ⟨by rfl, by rfl, GTIN_notFound_outside_lock, CacheData_writes_under_lock,
    RetrieveASIN_writes_under_lock⟩

end Amazon
